import Mathlib

/-!
# go-weather-report

A shallow embedding of the two pipelines of the repository:

* `analyze/rain_week_vs_weekend.go`: the aggregation loop of `fetchDataWeekVsWeekend`
  and the report assembly of `reportWeekVsWeekend`;
* `scrape_sunset_sunrise/main.go`: `rowsFromQuery` and `parseInt`.

Conventions of the embedding:

* Go `int` is the 64-bit two's-complement integer; it is modelled by `Int`, and every
  addition performed by the program is wrapped by `wrapInt`.
* Go `float64` is modelled by `Float64`, the exact IEEE-754 binary64 values, with the
  operations the program uses (conversion from `int`, division, `>`, and
  `strconv.FormatFloat(_, 'f', 2, 64)`).
* `log.Fatal()...Msg(...)` terminates the process; a function that can reach it returns
  `Except` with the fatal message as error.  A run-time panic is an error as well.
* A Go `map[int]*T` is an association list with pairwise distinct keys; the order of the
  list is the (unspecified) iteration order.
-/

set_option autoImplicit false

namespace Go

/-! ## Integers -/

/-- Two's-complement wrap-around of an integer into the range of Go `int` (64 bits). -/
def wrapInt (x : Int) : Int :=
  (x + 9223372036854775808) % 18446744073709551616 - 9223372036854775808

/-- Go `a + b` on `int`. -/
def addInt (a b : Int) : Int := wrapInt (a + b)

/-- Go `a * b` on `int` (also used for `time.Duration`, an `int64`). -/
def mulInt (a b : Int) : Int := wrapInt (a * b)

/-- The values of Go `int`. -/
def InRange (x : Int) : Prop := -9223372036854775808 ≤ x ∧ x ≤ 9223372036854775807

/-! ## Strings -/

/-- ASCII decimal digit. -/
def isDigit (c : Char) : Bool := decide ('0' ≤ c) && decide (c ≤ '9')

/-- Value of a string of ASCII decimal digits, most significant digit first. -/
def digitsValue (s : List Char) : Nat :=
  s.foldl (fun acc c => acc * 10 + (c.toNat - 48)) 0

/-- The digits that `strconv.Atoi` reads after the sign: one or more ASCII decimal
digits whose value, negated when `neg`, is a value of `int`. -/
def atoiDigits (neg : Bool) (body : List Char) : Option Int :=
  if body.isEmpty || !body.all isDigit then none
  else
    let n := digitsValue body
    if neg then (if n > 9223372036854775808 then none else some (-(n : Int)))
    else (if n ≥ 9223372036854775808 then none else some (n : Int))

/-- The function `strconv.Atoi`: an optional sign followed by one or more ASCII decimal
digits, denoting a value of `int`.  The result `none` stands for a non-nil error (bad
format or value out of range); the callers in this repository only test `err != nil`. -/
def Atoi (s : List Char) : Option Int :=
  match s with
  | '-' :: t => atoiDigits true t
  | '+' :: t => atoiDigits false t
  | t => atoiDigits false t

/-- The text of an integer without a minus sign, as `strconv.Atoi` reads it: one or
more ASCII decimal digits, possibly after a `+`, with a value of at most `2^63 - 1`. -/
def IsIntegerText (t : List Char) : Prop :=
  ∃ digits, (t = digits ∨ t = '+' :: digits) ∧ digits ≠ [] ∧ digits.all isDigit = true ∧
    digitsValue digits ≤ 9223372036854775807

/-- The function `strings.Split(s, sep)` for a one-character separator: the pieces of `s`
between the occurrences of `sep` (one more piece than there are separators). -/
def Split (sep : Char) : List Char → List (List Char)
  | [] => [[]]
  | c :: cs =>
    if c = sep then [] :: Split sep cs
    else match Split sep cs with
      | [] => [[c]]
      | p :: ps => (c :: p) :: ps

/-- The function `strconv.Itoa`. -/
def Itoa (i : Int) : String := toString i

/-- The function `unicode.IsSpace`. -/
def IsSpace (c : Char) : Bool :=
  let n := c.toNat
  n = 0x09 || n = 0x0A || n = 0x0B || n = 0x0C || n = 0x0D || n = 0x20 || n = 0x85 || n = 0xA0 ||
  n = 0x1680 || (0x2000 ≤ n && n ≤ 0x200A) || n = 0x2028 || n = 0x2029 || n = 0x202F ||
  n = 0x205F || n = 0x3000

/-- The function `strings.TrimSpace`: leading and trailing white space removed. -/
def TrimSpace (s : String) : String :=
  String.mk ((s.toList.dropWhile IsSpace).reverse.dropWhile IsSpace).reverse

/-- The function `unicode.IsNumber`.  Code points up to U+00FF are looked up in the
Latin-1 property table (the digits `0`-`9`, the superscripts `²`, `³`, `¹` and the
fractions `¼`, `½`, `¾`); the range table of category N for the code points above is
the parameter `numberTable`. -/
def IsNumber (numberTable : Char → Bool) (c : Char) : Bool :=
  let n := c.toNat
  if n ≤ 0xFF then
    (0x30 ≤ n && n ≤ 0x39) || n = 0xB2 || n = 0xB3 || n = 0xB9 || (0xBC ≤ n && n ≤ 0xBE)
  else numberTable c

/-! ## Floating point -/

/-- IEEE-754 binary64 values: NaN, the two infinities, and the finite values
`(-1)^neg * mant * 2^exp`, kept in normal form (`mant` odd, or `mant = 0` and `exp = 0`).
The exponent range of binary64 is not represented: quotients of two converted `int`
values lie between `2^-63` and `2^63` in magnitude and never leave it. -/
inductive Float64
  | nan
  | inf (neg : Bool)
  | fin (neg : Bool) (mant : Nat) (exp : Int)
deriving DecidableEq, Repr

namespace Float64

/-- The zero value of a `float64` variable, `+0.0`. -/
def zero : Float64 := .fin false 0 0

/-- Number of binary digits of `x`, by at most `fuel` halvings. -/
def bitLenAux : Nat → Nat → Nat
  | 0, _ => 0
  | fuel + 1, x => if x = 0 then 0 else bitLenAux fuel (x / 2) + 1

/-- Number of binary digits of `x`. -/
def bitLen (x : Nat) : Nat := bitLenAux x x

/-- Remove the factors two of a mantissa, raising the exponent accordingly. -/
def stripTwos : Nat → Nat → Int → Nat × Int
  | 0, m, e => (m, e)
  | fuel + 1, m, e =>
    if m ≠ 0 ∧ m % 2 = 0 then stripTwos fuel (m / 2) (e + 1) else (m, e)

/-- The finite value `(-1)^neg * m * 2^e` in normal form. -/
def finite (neg : Bool) (m : Nat) (e : Int) : Float64 :=
  if m = 0 then .fin neg 0 0
  else
    let r := stripTwos m m e
    .fin neg r.1 r.2

/-- The positive rational `n / d * 2^e` rounded to 53 significant bits, ties to even,
with sign `neg`.  The quotient is first taken with 55 or 56 bits and a sticky remainder. -/
def roundQuot (neg : Bool) (n d : Nat) (e : Int) : Float64 :=
  let k : Int := (bitLen n : Int) - (bitLen d : Int)
  let s : Int := 55 - k
  let n' := if 0 ≤ s then n * 2 ^ s.toNat else n
  let d' := if 0 ≤ s then d else d * 2 ^ (-s).toNat
  let q := n' / d'
  let r := n' % d'
  let x := bitLen q - 53
  let m0 := q / 2 ^ x
  let low := q % 2 ^ x
  let half := 2 ^ (x - 1)
  let up : Bool :=
    decide (low > half) || (decide (low = half) && (decide (r ≠ 0) || decide (m0 % 2 = 1)))
  finite neg (if up then m0 + 1 else m0) ((x : Int) - s + e)

/-- The conversion `float64(i)` of an `int`. -/
def ofInt (i : Int) : Float64 :=
  if i = 0 then zero else roundQuot (decide (i < 0)) i.natAbs 1 0

/-- The quotient `x / y` of IEEE-754. -/
def div : Float64 → Float64 → Float64
  | .nan, _ => .nan
  | _, .nan => .nan
  | .inf _, .inf _ => .nan
  | .inf a, .fin b _ _ => .inf (a != b)
  | .fin a _ _, .inf b => .fin (a != b) 0 0
  | .fin a m e, .fin b m' e' =>
    if m' = 0 then (if m = 0 then .nan else .inf (a != b))
    else if m = 0 then .fin (a != b) 0 0
    else roundQuot (a != b) m m' (e - e')

/-- The comparison `x > y` of IEEE-754 (false as soon as one side is NaN). -/
def gt : Float64 → Float64 → Bool
  | .nan, _ => false
  | _, .nan => false
  | .inf a, .inf b => !a && b
  | .inf a, .fin _ _ _ => !a
  | .fin _ _ _, .inf b => b
  | .fin a m e, .fin b m' e' =>
    let lo := min e e'
    let x : Int := (if a then -1 else 1) * ((m * 2 ^ (e - lo).toNat : Nat) : Int)
    let y : Int := (if b then -1 else 1) * ((m' * 2 ^ (e' - lo).toNat : Nat) : Int)
    decide (x > y)

/-- Whether the value is a finite number (neither NaN nor an infinity). -/
def isFinite : Float64 → Bool
  | .fin _ _ _ => true
  | _ => false

/-- Whether the value is NaN. -/
def isNaN : Float64 → Bool
  | .nan => true
  | _ => false

end Float64

/-- Two decimal digits of a number below 100. -/
def pad2 (n : Nat) : String := if n < 10 then "0" ++ Nat.repr n else Nat.repr n

/-- The call `strconv.FormatFloat(f, 'f', 2, 64)`: the exact value rounded to two
decimals, ties to even; `NaN`, `+Inf` and `-Inf` for the special values. -/
def FormatFloat2 : Float64 → String
  | .nan => "NaN"
  | .inf neg => if neg then "-Inf" else "+Inf"
  | .fin neg m e =>
    let num := if 0 ≤ e then m * 100 * 2 ^ e.toNat else m * 100
    let den := if 0 ≤ e then 1 else 2 ^ (-e).toNat
    let q := num / den
    let r := num % den
    let c := if 2 * r > den ∨ (2 * r = den ∧ q % 2 = 1) then q + 1 else q
    (if neg then "-" else "") ++ Nat.repr (c / 100) ++ "." ++ pad2 (c % 100)

end Go

namespace Analyze

open Go

/-! ## `analyze/main.go` -/

/-- The function `ternaryToString`. -/
def ternaryToString (isTrue : Bool) (trueValue falseValue : String) : String :=
  if isTrue then trueValue else falseValue

/-! ## `analyze/rain_week_vs_weekend.go`: data model -/

/-- The struct `WeekVsWeekendYearAgg`. -/
structure WeekVsWeekendYearAgg where
  TotalDays : Int
  TotalWetDays : Int
  WetDaysWeek : Int
  TotalDaysWeek : Int
  WetDaysWeekend : Int
  TotalDaysWeekend : Int
  ChanceOfRain : Float64
  ChanceOfRainDuringWeek : Float64
  ChanceOfRainDuringWeekend : Float64
  WeekendMoreWet : Bool
deriving DecidableEq, Repr

/-- The value `new(WeekVsWeekendYearAgg)`: every field holds its zero value. -/
def WeekVsWeekendYearAgg.new : WeekVsWeekendYearAgg :=
  { TotalDays := 0, TotalWetDays := 0, WetDaysWeek := 0, TotalDaysWeek := 0,
    WetDaysWeekend := 0, TotalDaysWeekend := 0, ChanceOfRain := Float64.zero,
    ChanceOfRainDuringWeek := Float64.zero, ChanceOfRainDuringWeekend := Float64.zero,
    WeekendMoreWet := false }

/-- The local struct `Row` of `fetchDataWeekVsWeekend`: one scanned row of the query. -/
structure Row where
  YearWeekday : String
  Rained : Bool
  NumberOfDays : Int
deriving DecidableEq, Repr

/-- The constants `time.Sunday` and `time.Saturday` of type `time.Weekday` (an `int`). -/
def Sunday : Int := 0

/-- See `Sunday`. -/
def Saturday : Int := 6

/-- The fatal log messages of the aggregation loop, with the logged string. -/
inductive Fatal
  | formatYearWeekdayExpected (date : String)
  | failedToParseYear (year : String)
  | failedToParseWeekday (weekday : String)
deriving DecidableEq, Repr

/-- The type `map[int]*WeekVsWeekendYearAgg`. -/
abbrev YearMap := List (Int × WeekVsWeekendYearAgg)

/-- The map read `report[year]`; `none` when the key is absent (`ok = false`, nil pointer). -/
def YearMap.lookup (year : Int) : YearMap → Option WeekVsWeekendYearAgg
  | [] => none
  | (y, a) :: rest => if y = year then some a else YearMap.lookup year rest

/-- The aggregate of `year` becomes `agg`: through the pointer already stored in the map
when the key is present, by the assignment `report[year] = agg` when it is not. -/
def YearMap.store (year : Int) (agg : WeekVsWeekendYearAgg) : YearMap → YearMap
  | [] => [(year, agg)]
  | (y, a) :: rest =>
    if y = year then (y, agg) :: rest else (y, a) :: YearMap.store year agg rest

/-- The keys of the map. -/
def YearMap.keys (m : YearMap) : List Int := m.map Prod.fst

/-! ## `fetchDataWeekVsWeekend`: the aggregation loop -/

/-- Lines 128-141, "Extract date parts": the year and the weekday number of a key. -/
def extractDateParts (yearWeekday : String) : Except Fatal (Int × Int) :=
  match Split '-' yearWeekday.toList with
  | [p0, p1] =>
    match Atoi p0 with
    | none => .error (.failedToParseYear (String.mk p0))
    | some year =>
      match Atoi p1 with
      | none => .error (.failedToParseWeekday (String.mk p1))
      | some weekdayInt => .ok (year, weekdayInt)
  | _ => .error (.formatYearWeekdayExpected yearWeekday)

/-- Lines 148-164, "Complete data": one bucket row merged into the aggregate of its year. -/
def completeData (agg : WeekVsWeekendYearAgg) (weekday : Int) (rained : Bool)
    (numberOfDays : Int) : WeekVsWeekendYearAgg :=
  let agg :=
    if weekday = Saturday ∨ weekday = Sunday then
      let agg :=
        if rained then { agg with WetDaysWeekend := addInt agg.WetDaysWeekend numberOfDays }
        else agg
      let agg := { agg with TotalDaysWeekend := addInt agg.TotalDaysWeekend numberOfDays }
      let chance := Float64.div (Float64.ofInt agg.WetDaysWeekend) (Float64.ofInt agg.TotalDaysWeekend)
      { agg with ChanceOfRainDuringWeekend := chance }
    else
      let agg :=
        if rained then { agg with WetDaysWeek := addInt agg.WetDaysWeek numberOfDays }
        else agg
      let agg := { agg with TotalDaysWeek := addInt agg.TotalDaysWeek numberOfDays }
      let chance := Float64.div (Float64.ofInt agg.WetDaysWeek) (Float64.ofInt agg.TotalDaysWeek)
      { agg with ChanceOfRainDuringWeek := chance }
  let agg := { agg with TotalDays := addInt agg.TotalDaysWeek agg.TotalDaysWeekend }
  let agg := { agg with TotalWetDays := addInt agg.WetDaysWeek agg.WetDaysWeekend }
  let chanceOfRain := Float64.div (Float64.ofInt agg.TotalWetDays) (Float64.ofInt agg.TotalDays)
  let agg := { agg with ChanceOfRain := chanceOfRain }
  { agg with
    WeekendMoreWet := Float64.gt agg.ChanceOfRainDuringWeekend agg.ChanceOfRainDuringWeek }

/-- One iteration of the loop of lines 127-168. -/
def processRow (report : YearMap) (row : Row) : Except Fatal YearMap :=
  match extractDateParts row.YearWeekday with
  | .error e => .error e
  | .ok (year, weekdayInt) =>
    let agg := (report.lookup year).getD WeekVsWeekendYearAgg.new
    .ok (report.store year (completeData agg weekdayInt row.Rained row.NumberOfDays))

/-- The loop of lines 127-168 from the mapping `report` on. -/
def processRows (report : YearMap) : List Row → Except Fatal YearMap
  | [] => .ok report
  | row :: rest =>
    match processRow report row with
    | .error e => .error e
    | .ok report' => processRows report' rest

/-- Lines 126-169 of `fetchDataWeekVsWeekend`: the mapping derived from the scanned
rows `data` of the query, or the fatal message on which the process terminates. -/
def fetchDataWeekVsWeekend (data : List Row) : Except Fatal YearMap :=
  processRows [] data

/-! ## Closed form of the aggregation -/

/-- A decomposed bucket row: weekday number, rained flag, number of days. -/
abbrev Bucket := Int × Bool × Int

/-- The bucket rows of `year` among `data`, in the order of `data`. -/
def rowsOfYear (year : Int) (data : List Row) : List Bucket :=
  data.filterMap fun row =>
    match extractDateParts row.YearWeekday with
    | .ok (y, weekdayInt) =>
      if y = year then some (weekdayInt, row.Rained, row.NumberOfDays) else none
    | .error _ => none

/-- The sum of `NumberOfDays` over the bucket rows that satisfy `p`. -/
def sumDays (p : Bucket → Bool) (rs : List Bucket) : Int :=
  ((rs.filter p).map fun b => b.2.2).sum

/-- The weekday number is that of Sunday (0) or Saturday (6). -/
def onWeekend (b : Bucket) : Bool := decide (b.1 = 6 ∨ b.1 = 0)

/-- The weekday number is any other number. -/
def inWeek (b : Bucket) : Bool := !onWeekend b

/-- A rained bucket of the weekend. -/
def wetOnWeekend (b : Bucket) : Bool := onWeekend b && b.2.1

/-- A rained bucket of the week. -/
def wetInWeek (b : Bucket) : Bool := inWeek b && b.2.1

/-- The aggregate determined by the bucket rows `rs` of one year: the counters are the
sums over the rows, each ratio is the quotient of the final counters of its scope, and
the ratio of a scope without any row keeps the zero value. -/
def summary (rs : List Bucket) : WeekVsWeekendYearAgg :=
  let wetWeek := wrapInt (sumDays wetInWeek rs)
  let totalWeek := wrapInt (sumDays inWeek rs)
  let wetWeekend := wrapInt (sumDays wetOnWeekend rs)
  let totalWeekend := wrapInt (sumDays onWeekend rs)
  let chanceWeek :=
    if rs.any inWeek then Float64.div (Float64.ofInt wetWeek) (Float64.ofInt totalWeek)
    else Float64.zero
  let chanceWeekend :=
    if rs.any onWeekend then Float64.div (Float64.ofInt wetWeekend) (Float64.ofInt totalWeekend)
    else Float64.zero
  let chance :=
    if rs.isEmpty then Float64.zero
    else Float64.div (Float64.ofInt (addInt wetWeek wetWeekend)) (Float64.ofInt (addInt totalWeek totalWeekend))
  { TotalDays := addInt totalWeek totalWeekend
    TotalWetDays := addInt wetWeek wetWeekend
    WetDaysWeek := wetWeek
    TotalDaysWeek := totalWeek
    WetDaysWeekend := wetWeekend
    TotalDaysWeekend := totalWeekend
    ChanceOfRain := chance
    ChanceOfRainDuringWeek := chanceWeek
    ChanceOfRainDuringWeekend := chanceWeekend
    WeekendMoreWet := Float64.gt chanceWeekend chanceWeek }

/-- The bucket rows `rs` merged one after the other into the aggregate `agg`. -/
def mergeBuckets (agg : WeekVsWeekendYearAgg) (rs : List Bucket) : WeekVsWeekendYearAgg :=
  rs.foldl (fun a b => completeData a b.1 b.2.1 b.2.2) agg

/-- The entry of a year after its bucket rows `rs` were merged, from the entry `o` on. -/
def extend (o : Option WeekVsWeekendYearAgg) (rs : List Bucket) : Option WeekVsWeekendYearAgg :=
  match rs with
  | [] => o
  | _ :: _ => some (mergeBuckets (o.getD WeekVsWeekendYearAgg.new) rs)

/-- The weekday number is one of 1..5 (Monday to Friday). -/
def mondayToFriday (b : Bucket) : Bool := decide (1 ≤ b.1 ∧ b.1 ≤ 5)

/-- The scenario of the specification: Saturday 2020-01-04 (rained), Sunday 2020-01-05
(dry), Monday 2020-01-06 (rained), as bucket rows of the query. -/
def scenario2020 : List Row :=
  [⟨"2020-6", true, 1⟩, ⟨"2020-0", false, 1⟩, ⟨"2020-1", true, 1⟩]

/-- The aggregate of the year 2020 in the scenario: three days, two of them wet; chance
of rain 2/3 over all, 1/1 during the week and 1/2 during the weekend. -/
def scenario2020Agg : WeekVsWeekendYearAgg :=
  { TotalDays := 3, TotalWetDays := 2, WetDaysWeek := 1, TotalDaysWeek := 1,
    WetDaysWeekend := 1, TotalDaysWeekend := 2,
    ChanceOfRain := .fin false 6004799503160661 (-53),
    ChanceOfRainDuringWeek := .fin false 1 0,
    ChanceOfRainDuringWeekend := .fin false 1 (-1),
    WeekendMoreWet := false }

/-- The aggregate of a year with one bucket row: one rained day during the week.  The
three ratios are 1.0, 1.0 and the zero value 0.0. -/
def oneWetWeekDayAgg : WeekVsWeekendYearAgg :=
  { TotalDays := 1, TotalWetDays := 1, WetDaysWeek := 1, TotalDaysWeek := 1,
    WetDaysWeekend := 0, TotalDaysWeekend := 0,
    ChanceOfRain := .fin false 1 0,
    ChanceOfRainDuringWeek := .fin false 1 0,
    ChanceOfRainDuringWeekend := .fin false 0 0,
    WeekendMoreWet := false }

/-- The aggregate of a year with one bucket row: three dry days during the week.  The
three ratios are 0.0. -/
def threeDryWeekDaysAgg : WeekVsWeekendYearAgg :=
  { TotalDays := 3, TotalWetDays := 0, WetDaysWeek := 0, TotalDaysWeek := 3,
    WetDaysWeekend := 0, TotalDaysWeekend := 0,
    ChanceOfRain := .fin false 0 0,
    ChanceOfRainDuringWeek := .fin false 0 0,
    ChanceOfRainDuringWeekend := .fin false 0 0,
    WeekendMoreWet := false }

/-- The aggregate of a year with one bucket row: a weekend bucket of zero days.  The
ratio over all days and that of the weekend are 0/0, NaN. -/
def emptyWeekendBucketAgg : WeekVsWeekendYearAgg :=
  { TotalDays := 0, TotalWetDays := 0, WetDaysWeek := 0, TotalDaysWeek := 0,
    WetDaysWeekend := 0, TotalDaysWeekend := 0,
    ChanceOfRain := .nan,
    ChanceOfRainDuringWeek := .fin false 0 0,
    ChanceOfRainDuringWeekend := .nan,
    WeekendMoreWet := false }

/-- The key has the form `<integer>-<integer>`: two integer texts around one `-`.  The
second integer is not required to lie within 0..6. -/
def IsYearWeekday (s : String) : Prop :=
  ∃ year weekday, s.toList = year ++ '-' :: weekday ∧ IsIntegerText year ∧
    IsIntegerText weekday

/-- Every row of `data` has a key that the loop decomposes without a fatal error. -/
def Accepted (data : List Row) : Prop :=
  ∀ row ∈ data, ∃ k, extractDateParts row.YearWeekday = .ok k

/-- The equalities that the loop re-derives at the end of every iteration. -/
def Derived (agg : WeekVsWeekendYearAgg) : Prop :=
  agg.TotalDays = addInt agg.TotalDaysWeek agg.TotalDaysWeekend ∧
  agg.TotalWetDays = addInt agg.WetDaysWeek agg.WetDaysWeekend

/-! ## `reportWeekVsWeekend`: the report assembly -/

/-- The struct `WeekVsWeekendReport`; a nil pointer is `none`. -/
structure WeekVsWeekendReport where
  Year : Int
  WholeDay : Option WeekVsWeekendYearAgg
  DuringDaytime : Option WeekVsWeekendYearAgg
deriving DecidableEq, Repr

/-- The run-time panic of the report assembly ("invalid memory address or nil pointer
dereference"), on which the process terminates. -/
inductive Panic
  | nilPointerDereference
deriving DecidableEq, Repr

/-- The method `WeekVsWeekendReport.ToCsv`.  Its fields are read through the two
pointers of the report; reading through a nil pointer panics. -/
def WeekVsWeekendReport.ToCsv (report : WeekVsWeekendReport) : Except Panic (List String) :=
  match report.WholeDay, report.DuringDaytime with
  | some wholeDay, some duringDaytime =>
    .ok [
      Itoa report.Year,
      FormatFloat2 wholeDay.ChanceOfRain,
      FormatFloat2 wholeDay.ChanceOfRainDuringWeek,
      FormatFloat2 wholeDay.ChanceOfRainDuringWeekend,
      ternaryToString
        (Float64.gt wholeDay.ChanceOfRainDuringWeekend wholeDay.ChanceOfRainDuringWeek) "ja" "nee",
      FormatFloat2 duringDaytime.ChanceOfRain,
      FormatFloat2 duringDaytime.ChanceOfRainDuringWeek,
      FormatFloat2 duringDaytime.ChanceOfRainDuringWeekend,
      ternaryToString
        (Float64.gt duringDaytime.ChanceOfRainDuringWeekend duringDaytime.ChanceOfRainDuringWeek)
        "ja" "nee" ]
  | _, _ => .error .nilPointerDereference

/-- Lines 22-30: one report per entry of `wholeDay`, in the iteration order of the map;
`dayTime[year]` is the nil pointer when `year` is not a key of `dayTime`. -/
def collectReports (wholeDay dayTime : YearMap) : List WeekVsWeekendReport :=
  wholeDay.map fun p =>
    { Year := p.1, WholeDay := some p.2, DuringDaytime := dayTime.lookup p.1 }

/-- The comparison given to `sort.Slice` at line 31. -/
def less (a b : WeekVsWeekendReport) : Bool := decide (a.Year < b.Year)

/-- The report `r` put in front of the first report that is not less than it. -/
def insertSorted (r : WeekVsWeekendReport) : List WeekVsWeekendReport → List WeekVsWeekendReport
  | [] => [r]
  | x :: xs => if less x r then x :: insertSorted r xs else r :: x :: xs

/-- The call `sort.Slice(reports, less)`.  The library promises a permutation of the
slice that is ordered by `less`, and nothing about the order of equal elements.  The
years of the reports are the pairwise distinct keys of a map, so that permutation is
unique; it is computed here by insertion. -/
def sortSlice (reports : List WeekVsWeekendReport) : List WeekVsWeekendReport :=
  reports.foldr insertSorted []

/-- Lines 22-31, "Merge reports". -/
def mergeReports (wholeDay dayTime : YearMap) : List WeekVsWeekendReport :=
  sortSlice (collectReports wholeDay dayTime)

/-- The header row of the CSV report. -/
def csvHeader : List String :=
  [ "jaar", "kans_op_regen_totaal", "kans_op_regen_week", "kans_op_regen_weekend",
    "meer_kans_op_regen_weekend", "dag_kans_op_regen_totaal", "dag_kans_op_regen_week",
    "dag_kans_op_regen_weekend", "dag_meer_kans_op_regen_weekend" ]

/-- The loop of lines 46-48: the rows of the reports appended to `csvReport`. -/
def appendCsvRows (csvReport : List (List String)) :
    List WeekVsWeekendReport → Except Panic (List (List String))
  | [] => .ok csvReport
  | report :: rest =>
    match report.ToCsv with
    | .error e => .error e
    | .ok row => appendCsvRows (csvReport ++ [row]) rest

/-- Lines 21-48 of `reportWeekVsWeekend`, from the two mappings fetched at lines 18-19:
the content handed to the CSV writer, or the panic that ends the process before the
file is created at line 52. -/
def reportWeekVsWeekend (wholeDay dayTime : YearMap) : Except Panic (List (List String)) :=
  appendCsvRows [csvHeader] (mergeReports wholeDay dayTime)

/-- Every year of the whole-day mapping is a key of the daytime mapping. -/
def Matching (wholeDay dayTime : YearMap) : Prop :=
  ∀ year ∈ wholeDay.keys, (dayTime.lookup year).isSome = true

instance (wholeDay dayTime : YearMap) : Decidable (Matching wholeDay dayTime) := by
  unfold Matching
  infer_instance

end Analyze

namespace ScrapeSunsetSunrise

open Go

/-! ## `scrape_sunset_sunrise/main.go` -/

/-- The constant `rowColumnsCount`. -/
def rowColumnsCount : Nat := 6

/-- The constant `time.Minute`, in nanoseconds. -/
def Minute : Int := 60000000000

/-- What `rowsFromQuery` takes from outside the repository: package `time`, for the
fixed layouts and the fixed location of the program, and the Unicode table of numbers. -/
structure Library (Time : Type) where
  /-- Whether `time.LoadLocation(timeLocation)` succeeds. -/
  LoadLocation : Bool
  /-- The call `time.ParseInLocation(dateFormat, _, location)`; `none` on an error. -/
  ParseInLocation : String → Option Time
  /-- The call `time.Parse(timeFormat, _)`; `none` on an error. -/
  Parse : String → Option Time
  /-- The call `time.Date` on the day of `date` with hour and minute of `timePart`. -/
  Date : (date : Time) → (timePart : Time) → Time
  /-- The range table of Unicode category N above U+00FF. -/
  numberTable : Char → Bool

/-- The struct `Row`; `Duration` is a `time.Duration`, a number of nanoseconds. -/
structure Row (Time : Type) where
  Date : Time
  SunriseStart : Time
  SunriseEnd : Time
  SunsetStart : Time
  SunsetEnd : Time
  Duration : Int
deriving DecidableEq, Repr

/-- The errors returned by `rowsFromQuery`, one per `return nil, err`. -/
inductive ParseError
  | loadLocation
  | date
  | sunriseStart
  | sunriseEnd
  | sunsetStart
  | sunsetEnd
  | duration
  | durationOutsideRange (durationMins : Int)
deriving DecidableEq, Repr

/-- The function `parseTimeOnDate`. -/
def parseTimeOnDate {Time : Type} (lib : Library Time) (timeString : String) (date : Time) :
    Option Time :=
  let trimmedTime := TrimSpace timeString
  match lib.Parse trimmedTime with
  | none => none
  | some timePart => some (lib.Date date timePart)

/-- The function `parseInt`: drops all non-numeric characters and tries to parse the
remainder as an integer. -/
def parseInt {Time : Type} (lib : Library Time) (integer : String) : Option Int :=
  Atoi (integer.toList.filter (IsNumber lib.numberTable))

/-- The text of the cell `htmlCols.Eq(i).Text()` (empty for an empty selection). -/
def cellText (htmlCols : List String) (i : Nat) : String := htmlCols.getD i ""

/-- Lines 134-190 of `rowsFromQuery`: the row parsed from the cells of a table row with
six columns. -/
def parseRow {Time : Type} (lib : Library Time) (htmlCols : List String) :
    Except ParseError (Row Time) :=
  match lib.ParseInLocation (TrimSpace (cellText htmlCols 0)) with
  | none => .error .date
  | some date =>
    match parseTimeOnDate lib (TrimSpace (cellText htmlCols 4)) date with
    | none => .error .sunriseStart
    | some sunriseStart =>
      match parseTimeOnDate lib (TrimSpace (cellText htmlCols 1)) date with
      | none => .error .sunriseEnd
      | some sunriseEnd =>
        match parseTimeOnDate lib (TrimSpace (cellText htmlCols 5)) date with
        | none => .error .sunsetStart
        | some sunsetStart =>
          match parseTimeOnDate lib (TrimSpace (cellText htmlCols 2)) date with
          | none => .error .sunsetEnd
          | some sunsetEnd =>
            match parseInt lib (TrimSpace (cellText htmlCols 3)) with
            | none => .error .duration
            | some durationMins =>
              if durationMins < 1 ∨ durationMins > 120 then
                .error (.durationOutsideRange durationMins)
              else
                .ok { Date := date, SunriseStart := sunriseStart, SunriseEnd := sunriseEnd,
                      SunsetStart := sunsetStart, SunsetEnd := sunsetEnd,
                      Duration := mulInt durationMins Minute }

/-- The loop of lines 126-191 over the `tr` nodes, each given by the texts of its `td`
cells, from the rows collected so far. -/
def processNodes {Time : Type} (lib : Library Time) (rows : List (Row Time)) :
    List (List String) → Except ParseError (List (Row Time))
  | [] => .ok rows
  | htmlCols :: rest =>
    if htmlCols.length ≠ rowColumnsCount then processNodes lib rows rest
    else
      match parseRow lib htmlCols with
      | .error e => .error e
      | .ok row => processNodes lib (rows ++ [row]) rest

/-- The function `rowsFromQuery` on a document given by its `tr` nodes. -/
def rowsFromQuery {Time : Type} (lib : Library Time) (query : List (List String)) :
    Except ParseError (List (Row Time)) :=
  if lib.LoadLocation then processNodes lib [] query else .error .loadLocation

/-- The numeric characters of the duration cell of a table row. -/
def durationDigits {Time : Type} (lib : Library Time) (htmlCols : List String) : List Char :=
  (TrimSpace (cellText htmlCols 3)).toList.filter (IsNumber lib.numberTable)

/-- The numeric characters of the duration cell are ASCII digits, at least one, and
their decimal value lies within 1..120. -/
def DurationWithinRange {Time : Type} (lib : Library Time) (htmlCols : List String) : Prop :=
  durationDigits lib htmlCols ≠ [] ∧ (durationDigits lib htmlCols).all isDigit = true ∧
    1 ≤ digitsValue (durationDigits lib htmlCols) ∧ digitsValue (durationDigits lib htmlCols) ≤ 120

/-- The date cell and the four time cells of a table row parse. -/
def DateAndTimesParse {Time : Type} (lib : Library Time) (htmlCols : List String) : Prop :=
  ∃ date, lib.ParseInLocation (TrimSpace (cellText htmlCols 0)) = some date ∧
    (∃ t, parseTimeOnDate lib (TrimSpace (cellText htmlCols 4)) date = some t) ∧
    (∃ t, parseTimeOnDate lib (TrimSpace (cellText htmlCols 1)) date = some t) ∧
    (∃ t, parseTimeOnDate lib (TrimSpace (cellText htmlCols 5)) date = some t) ∧
    (∃ t, parseTimeOnDate lib (TrimSpace (cellText htmlCols 2)) date = some t)

/-- A library in which times are kept as the text they were read from and every text
is taken for a date and for a time of day. -/
def textLibrary : Library String :=
  { LoadLocation := true
    ParseInLocation := fun s => some s
    Parse := fun s => some s
    Date := fun date timePart => date ++ " " ++ timePart
    numberTable := fun _ => false }

/-- A table row of the page of one year, with the given text in its duration cell. -/
def sampleCols (duration : String) : List String :=
  ["01 01 2020", "08:45", "16:47", duration, "08:08", "17:25"]

end ScrapeSunsetSunrise

/-! ## Lemmas -/

set_option maxRecDepth 20000

namespace Go

theorem wrapInt_wrapInt_add (a b : Int) : wrapInt (wrapInt a + b) = wrapInt (a + b) := by
  unfold wrapInt; omega

theorem wrapInt_zero : wrapInt 0 = 0 := by
  unfold wrapInt; omega

theorem wrapInt_of_inRange {x : Int} (h : InRange x) : wrapInt x = x := by
  unfold InRange at h
  unfold wrapInt; omega

theorem inRange_wrapInt (x : Int) : InRange (wrapInt x) := by
  unfold InRange wrapInt; omega

theorem addInt_wrapInt_left (a b : Int) : addInt (wrapInt a) b = wrapInt (a + b) := by
  unfold addInt; exact wrapInt_wrapInt_add a b

theorem Atoi_plus (t : List Char) : Atoi ('+' :: t) = atoiDigits false t := rfl

theorem Atoi_unsigned (s : List Char) (h : ∀ c ∈ s.head?, c ≠ '-' ∧ c ≠ '+') :
    Atoi s = atoiDigits false s := by
  unfold Atoi
  split
  · exact absurd rfl (h '-' (by simp)).1
  · exact absurd rfl (h '+' (by simp)).2
  · rfl

theorem split_ne_nil (sep : Char) (l : List Char) : Split sep l ≠ [] := by
  cases l with
  | nil => simp [Split]
  | cons c cs =>
    unfold Split
    split
    · simp
    · split <;> simp

theorem split_of_not_mem (sep : Char) (l : List Char) (h : sep ∉ l) : Split sep l = [l] := by
  induction l with
  | nil => rfl
  | cons c cs ih =>
    have hc : c ≠ sep := fun e => h (by rw [e]; exact List.mem_cons_self _ _)
    have hcs : sep ∉ cs := fun e => h (List.mem_cons_of_mem _ e)
    simp [Split, hc, ih hcs]

theorem split_append_sep (sep : Char) (p rest : List Char) (h : sep ∉ p) :
    Split sep (p ++ sep :: rest) = p :: Split sep rest := by
  induction p with
  | nil => simp [Split]
  | cons c cs ih =>
    have hc : c ≠ sep := fun e => h (by rw [e]; exact List.mem_cons_self _ _)
    have hcs : sep ∉ cs := fun e => h (List.mem_cons_of_mem _ e)
    simp [Split, hc, ih hcs]

theorem split_eq_singleton (sep : Char) (l p : List Char) (h : Split sep l = [p]) :
    l = p ∧ sep ∉ p := by
  induction l generalizing p with
  | nil =>
    simp [Split] at h
    subst h
    simp
  | cons c cs ih =>
    unfold Split at h
    split at h
    · simp at h
      exact absurd h.2 (split_ne_nil sep cs)
    · rename_i hc
      split at h
      · rename_i hs
        exact absurd hs (split_ne_nil sep cs)
      · rename_i q qs hs
        simp at h
        obtain ⟨h1, h2⟩ := h
        subst h2
        obtain ⟨e1, e2⟩ := ih q hs
        subst h1
        subst e1
        refine ⟨rfl, ?_⟩
        intro hm
        rcases List.mem_cons.mp hm with e | e
        · exact hc e.symm
        · exact e2 e

theorem split_eq_pair (sep : Char) (l p0 p1 : List Char) (h : Split sep l = [p0, p1]) :
    l = p0 ++ sep :: p1 ∧ sep ∉ p0 ∧ sep ∉ p1 := by
  induction l generalizing p0 with
  | nil => simp [Split] at h
  | cons c cs ih =>
    unfold Split at h
    split at h
    · rename_i hc
      simp at h
      obtain ⟨h1, h2⟩ := h
      obtain ⟨e1, e2⟩ := split_eq_singleton sep cs p1 h2
      subst h1
      subst e1
      subst hc
      exact ⟨rfl, by simp, e2⟩
    · rename_i hc
      split at h
      · rename_i hs
        exact absurd hs (split_ne_nil sep cs)
      · rename_i q qs hs
        simp at h
        obtain ⟨h1, h2⟩ := h
        subst h2
        obtain ⟨e1, e2, e3⟩ := ih q hs
        subst h1
        subst e1
        refine ⟨rfl, ?_, e3⟩
        intro hm
        rcases List.mem_cons.mp hm with e | e
        · exact hc e.symm
        · exact e2 e

theorem atoiDigits_false_eq_some (ds : List Char) (v : Int) :
    atoiDigits false ds = some v ↔
      ds ≠ [] ∧ ds.all isDigit = true ∧ digitsValue ds ≤ 9223372036854775807 ∧
        v = (digitsValue ds : Int) := by
  unfold atoiDigits
  cases ds with
  | nil => simp
  | cons c cs =>
    by_cases hall : (c :: cs).all isDigit = true
    · by_cases hr : digitsValue (c :: cs) ≥ 9223372036854775808
      · have : ¬ digitsValue (c :: cs) ≤ 9223372036854775807 := by omega
        simp [hall, hr, this]
      · have : digitsValue (c :: cs) ≤ 9223372036854775807 := by omega
        simp only [List.isEmpty_cons, hall, Bool.not_true, Bool.or_self, Bool.false_eq_true,
          if_false, hr, ne_eq, reduceCtorEq, not_false_eq_true, this, true_and, Option.some.injEq]
        exact eq_comm
    · simp [hall]

theorem not_mem_of_all_isDigit (ds : List Char) (h : ds.all isDigit = true) (c : Char)
    (hc : isDigit c = false) : c ∉ ds := by
  intro hm
  rw [List.all_eq_true] at h
  rw [h c hm] at hc
  cases hc

theorem isIntegerText_of_Atoi (t : List Char) (v : Int) (h : Atoi t = some v)
    (hminus : '-' ∉ t) : IsIntegerText t := by
  cases t with
  | nil =>
    have : Atoi [] = none := rfl
    rw [this] at h
    cases h
  | cons c cs =>
    by_cases hp : c = '+'
    · subst hp
      rw [Atoi_plus] at h
      obtain ⟨h1, h2, h3, _⟩ := (atoiDigits_false_eq_some cs v).mp h
      exact ⟨cs, Or.inr rfl, h1, h2, h3⟩
    · have hm : c ≠ '-' := fun e => hminus (by rw [e]; exact List.mem_cons_self _ _)
      rw [Atoi_unsigned (c :: cs) (by intro d hd; simp at hd; subst hd; exact ⟨hm, hp⟩)] at h
      obtain ⟨h1, h2, h3, _⟩ := (atoiDigits_false_eq_some (c :: cs) v).mp h
      exact ⟨c :: cs, Or.inl rfl, h1, h2, h3⟩

theorem Atoi_of_isIntegerText (t : List Char) (h : IsIntegerText t) :
    ∃ v, Atoi t = some v ∧ 0 ≤ v := by
  obtain ⟨ds, ht, h1, h2, h3⟩ := h
  have hv : atoiDigits false ds = some (digitsValue ds : Int) :=
    (atoiDigits_false_eq_some ds _).mpr ⟨h1, h2, h3, rfl⟩
  rcases ht with rfl | rfl
  · refine ⟨(digitsValue t : Int), ?_, Int.natCast_nonneg _⟩
    rw [Atoi_unsigned t ?_]
    · exact hv
    · intro c hc
      have hmem : c ∈ t := List.mem_of_mem_head? hc
      have hd : isDigit c = true := (List.all_eq_true.mp h2) c hmem
      constructor
      · intro e; rw [e] at hd; exact absurd hd (by decide)
      · intro e; rw [e] at hd; exact absurd hd (by decide)
  · exact ⟨(digitsValue ds : Int), hv, Int.natCast_nonneg _⟩

theorem not_mem_of_isIntegerText (t : List Char) (h : IsIntegerText t) : '-' ∉ t := by
  obtain ⟨ds, ht, _, h2, _⟩ := h
  have hds : '-' ∉ ds := not_mem_of_all_isDigit ds h2 '-' (by decide)
  rcases ht with rfl | rfl
  · exact hds
  · intro hm
    rcases List.mem_cons.mp hm with e | e
    · exact absurd e (by decide)
    · exact hds e

end Go

namespace Analyze

open Go

theorem lookup_store (m : YearMap) (y year : Int) (agg : WeekVsWeekendYearAgg) :
    (m.store y agg).lookup year = if y = year then some agg else m.lookup year := by
  induction m with
  | nil => simp [YearMap.store, YearMap.lookup]
  | cons p rest ih =>
    obtain ⟨y', a⟩ := p
    by_cases h : y' = y
    · subst h
      by_cases h2 : y' = year <;> simp [YearMap.store, YearMap.lookup, h2]
    · by_cases h2 : y' = year
      · subst h2
        have h3 : ¬ y = y' := fun e => h e.symm
        simp [YearMap.store, YearMap.lookup, h, h3]
      · simp [YearMap.store, YearMap.lookup, h, h2, ih]

theorem sumDays_append (p : Bucket → Bool) (rs ss : List Bucket) :
    sumDays p (rs ++ ss) = sumDays p rs + sumDays p ss := by
  simp [sumDays, List.filter_append, List.map_append, List.sum_append]

theorem sumDays_single (p : Bucket → Bool) (b : Bucket) :
    sumDays p [b] = if p b then b.2.2 else 0 := by
  by_cases h : p b <;> simp [sumDays, List.filter, h]

theorem wrapInt_sumDays_concat (p : Bucket → Bool) (init : List Bucket) (b : Bucket) :
    wrapInt (sumDays p (init ++ [b])) =
      if p b then addInt (wrapInt (sumDays p init)) b.2.2 else wrapInt (sumDays p init) := by
  rw [sumDays_append, sumDays_single]
  by_cases h : p b
  · simp only [h, if_true, addInt_wrapInt_left]
  · simp [h]

theorem summary_nil : summary [] = WeekVsWeekendYearAgg.new := by
  decide

theorem completeData_summary (init : List Bucket) (b : Bucket) :
    completeData (summary init) b.1 b.2.1 b.2.2 = summary (init ++ [b]) := by
  obtain ⟨wd, rained, n⟩ := b
  have hany : ∀ p : Bucket → Bool,
      (init ++ [(wd, rained, n)]).any p = (init.any p || p (wd, rained, n)) := by
    intro p; simp [List.any_append]
  have hemp : (init ++ [(wd, rained, n)]).isEmpty = false := by
    cases init <;> rfl
  by_cases hw : wd = 6 ∨ wd = 0
  · have e1 : onWeekend (wd, rained, n) = true := by simp [onWeekend, hw]
    have e2 : inWeek (wd, rained, n) = false := by simp [inWeek, e1]
    have e3 : wetInWeek (wd, rained, n) = false := by simp [wetInWeek, e2]
    have e4 : wetOnWeekend (wd, rained, n) = rained := by simp [wetOnWeekend, e1]
    simp only [summary, wrapInt_sumDays_concat, hany, hemp, e1, e2, e3, e4]
    cases rained <;> simp only [completeData, hw, Saturday, Sunday, Bool.or_false, Bool.or_true, if_true, if_false, not_true_eq_false, not_false_eq_true] <;> rfl
  · have e1 : onWeekend (wd, rained, n) = false := by simp [onWeekend, hw]
    have e2 : inWeek (wd, rained, n) = true := by simp [inWeek, e1]
    have e3 : wetOnWeekend (wd, rained, n) = false := by simp [wetOnWeekend, e1]
    have e4 : wetInWeek (wd, rained, n) = rained := by simp [wetInWeek, e2]
    simp only [summary, wrapInt_sumDays_concat, hany, hemp, e1, e2, e3, e4]
    cases rained <;> simp only [completeData, hw, Saturday, Sunday, Bool.or_false, Bool.or_true, if_true, if_false, not_true_eq_false, not_false_eq_true] <;> rfl

theorem mergeBuckets_new (rs : List Bucket) :
    mergeBuckets WeekVsWeekendYearAgg.new rs = summary rs := by
  induction rs using List.reverseRecOn with
  | nil => exact summary_nil.symm
  | append_singleton init b ih =>
    unfold mergeBuckets at ih ⊢
    rw [List.foldl_append, ih]
    exact completeData_summary init b

theorem extend_cons (o : Option WeekVsWeekendYearAgg) (b : Bucket) (rs : List Bucket) :
    extend o (b :: rs) =
      extend (some (completeData (o.getD WeekVsWeekendYearAgg.new) b.1 b.2.1 b.2.2)) rs := by
  cases rs <;> simp [extend, mergeBuckets]

theorem processRow_ok {report report' : YearMap} {row : Row}
    (h : processRow report row = .ok report') :
    ∃ year weekdayInt, extractDateParts row.YearWeekday = .ok (year, weekdayInt) ∧
      report' = report.store year
        (completeData ((report.lookup year).getD WeekVsWeekendYearAgg.new) weekdayInt
          row.Rained row.NumberOfDays) := by
  unfold processRow at h
  split at h
  · cases h
  · rename_i year weekdayInt he
    refine ⟨year, weekdayInt, he, ?_⟩
    cases h
    rfl

theorem processRows_cons_ok {report report' : YearMap} {row : Row} {rest : List Row}
    (h : processRows report (row :: rest) = .ok report') :
    ∃ mid, processRow report row = .ok mid ∧ processRows mid rest = .ok report' := by
  unfold processRows at h
  split at h
  · cases h
  · rename_i mid hm
    exact ⟨mid, hm, h⟩

theorem rowsOfYear_cons (year : Int) (row : Row) (rest : List Row) (y weekdayInt : Int)
    (he : extractDateParts row.YearWeekday = .ok (y, weekdayInt)) :
    rowsOfYear year (row :: rest) =
      if y = year then (weekdayInt, row.Rained, row.NumberOfDays) :: rowsOfYear year rest
      else rowsOfYear year rest := by
  by_cases h : y = year <;> simp [rowsOfYear, List.filterMap_cons, he, h]

theorem lookup_processRows (data : List Row) :
    ∀ (report report' : YearMap), processRows report data = .ok report' →
      ∀ year, report'.lookup year = extend (report.lookup year) (rowsOfYear year data) := by
  induction data with
  | nil =>
    intro report report' h year
    simp only [processRows] at h
    cases h
    rfl
  | cons row rest ih =>
    intro report report' h year
    obtain ⟨mid, h1, h2⟩ := processRows_cons_ok h
    obtain ⟨y, weekdayInt, he, hmid⟩ := processRow_ok h1
    rw [ih mid report' h2 year, rowsOfYear_cons year row rest y weekdayInt he, hmid, lookup_store]
    by_cases hy : y = year
    · subst hy
      simp only [if_true]
      rw [extend_cons]
    · simp only [hy, if_false]

theorem lookup_fetch {data : List Row} {report : YearMap}
    (h : fetchDataWeekVsWeekend data = .ok report) (year : Int) :
    report.lookup year =
      if (rowsOfYear year data).isEmpty then none else some (summary (rowsOfYear year data)) := by
  have := lookup_processRows data [] report h year
  rw [this]
  cases hr : rowsOfYear year data with
  | nil => rfl
  | cons b rs =>
    simp only [extend, YearMap.lookup, Option.getD, List.isEmpty_cons]
    rw [mergeBuckets_new]
    rfl

theorem processRows_ok_of_accepted (data : List Row) :
    ∀ report : YearMap, Accepted data → ∃ report', processRows report data = .ok report' := by
  induction data with
  | nil => intro report _; exact ⟨report, rfl⟩
  | cons row rest ih =>
    intro report hacc
    obtain ⟨k, hk⟩ := hacc row (List.mem_cons_self _ _)
    obtain ⟨y, weekdayInt⟩ := k
    have hrest : Accepted rest := fun r hr => hacc r (List.mem_cons_of_mem _ hr)
    obtain ⟨report', h'⟩ := ih (report.store y
      (completeData ((report.lookup y).getD WeekVsWeekendYearAgg.new) weekdayInt
        row.Rained row.NumberOfDays)) hrest
    refine ⟨report', ?_⟩
    simp only [processRows, processRow, hk]
    exact h'

theorem accepted_of_processRows_ok (data : List Row) :
    ∀ report report' : YearMap, processRows report data = .ok report' → Accepted data := by
  induction data with
  | nil => intro _ _ _ row hrow; cases hrow
  | cons row rest ih =>
    intro report report' h r hr
    obtain ⟨mid, h1, h2⟩ := processRows_cons_ok h
    obtain ⟨y, weekdayInt, he, _⟩ := processRow_ok h1
    rcases List.mem_cons.mp hr with rfl | hr'
    · exact ⟨_, he⟩
    · exact ih mid report' h2 r hr'

theorem processRows_append (pre suf : List Row) :
    ∀ report : YearMap, processRows report (pre ++ suf) =
      match processRows report pre with
      | .error e => .error e
      | .ok mid => processRows mid suf := by
  induction pre with
  | nil => intro report; rfl
  | cons row rest ih =>
    intro report
    simp only [List.cons_append, processRows]
    cases processRow report row with
    | error e => rfl
    | ok mid => exact ih mid

theorem sumDays_eq_zero_of_any_false (p : Bucket → Bool) (rs : List Bucket)
    (h : rs.any p = false) : sumDays p rs = 0 := by
  have hf : rs.filter p = [] := by
    rw [List.filter_eq_nil_iff]
    intro b hb hp
    rw [List.any_eq_false] at h
    exact h b hb hp
  simp [sumDays, hf]

theorem sumDays_congr (p q : Bucket → Bool) (rs : List Bucket)
    (h : ∀ b ∈ rs, p b = q b) : sumDays p rs = sumDays q rs := by
  unfold sumDays
  rw [List.filter_congr h]

theorem sumDays_perm (p : Bucket → Bool) {rs ss : List Bucket} (h : rs.Perm ss) :
    sumDays p rs = sumDays p ss :=
  ((h.filter p).map _).sum_eq

theorem any_perm (p : Bucket → Bool) {rs ss : List Bucket} (h : rs.Perm ss) :
    rs.any p = ss.any p := by
  rw [List.any_eq, List.any_eq]
  congr 1
  exact propext ⟨fun ⟨x, hx, hp⟩ => ⟨x, h.mem_iff.mp hx, hp⟩,
    fun ⟨x, hx, hp⟩ => ⟨x, h.mem_iff.mpr hx, hp⟩⟩

theorem summary_perm {rs ss : List Bucket} (h : rs.Perm ss) : summary rs = summary ss := by
  unfold summary
  rw [sumDays_perm wetInWeek h, sumDays_perm inWeek h, sumDays_perm wetOnWeekend h,
    sumDays_perm onWeekend h, any_perm inWeek h, any_perm onWeekend h, h.isEmpty_eq]

theorem rowsOfYear_perm (year : Int) {data data' : List Row} (h : data.Perm data') :
    (rowsOfYear year data).Perm (rowsOfYear year data') :=
  h.filterMap _

theorem summary_of_lookup {data : List Row} {report : YearMap} {year : Int}
    {agg : WeekVsWeekendYearAgg} (h : fetchDataWeekVsWeekend data = .ok report)
    (hy : report.lookup year = some agg) :
    (rowsOfYear year data).isEmpty = false ∧ agg = summary (rowsOfYear year data) := by
  rw [lookup_fetch h year] at hy
  cases he : (rowsOfYear year data).isEmpty with
  | true => rw [he] at hy; simp at hy
  | false =>
    rw [he] at hy
    simp only [Bool.false_eq_true, if_false, Option.some.injEq] at hy
    exact ⟨rfl, hy.symm⟩

theorem finite_is_fin (neg : Bool) (m : Nat) (e : Int) :
    ∃ neg' m' e', Float64.finite neg m e = .fin neg' m' e' := by
  unfold Float64.finite
  split
  · exact ⟨_, _, _, rfl⟩
  · exact ⟨_, _, _, rfl⟩

theorem ofInt_is_fin (i : Int) : ∃ neg m e, Float64.ofInt i = .fin neg m e := by
  unfold Float64.ofInt
  split
  · exact ⟨false, 0, 0, rfl⟩
  · exact finite_is_fin _ _ _

theorem div_ofInt_zero_not_finite (i : Int) :
    (Float64.div (Float64.ofInt i) (Float64.ofInt 0)).isFinite = false := by
  obtain ⟨neg, m, e, h⟩ := ofInt_is_fin i
  rw [h]
  have h0 : Float64.ofInt 0 = .fin false 0 0 := rfl
  rw [h0]
  by_cases hm : m = 0 <;> simp [Float64.div, hm, Float64.isFinite]

/-- Known binary64 values: 1/3 is `0x3FD5555555555555`, 2/3 is `0x3FE5555555555555`,
1/10 is `0x3FB999999999999A`, `2^53 + 1` rounds to `2^53` and `2^53 + 3` to `2^53 + 4`. -/
theorem float64_known_values :
    Float64.div (Float64.ofInt 1) (Float64.ofInt 3) = .fin false 0x15555555555555 (-54) ∧
      Float64.div (Float64.ofInt 2) (Float64.ofInt 3) = .fin false 0x15555555555555 (-53) ∧
      Float64.div (Float64.ofInt 1) (Float64.ofInt 10) = .fin false 0xCCCCCCCCCCCCD (-55) ∧
      Float64.ofInt 9007199254740993 = .fin false 1 53 ∧
      Float64.ofInt 9007199254740995 = .fin false 0x8000000000001 2 ∧
      Float64.div (Float64.ofInt 0) (Float64.ofInt 0) = .nan ∧
      Float64.div (Float64.ofInt 1) (Float64.ofInt 0) = .inf false ∧
      FormatFloat2 (Float64.div (Float64.ofInt 1) (Float64.ofInt 8)) = "0.12" ∧
      FormatFloat2 (Float64.div (Float64.ofInt 3) (Float64.ofInt 8)) = "0.38" ∧
      FormatFloat2 (Float64.div (Float64.ofInt 2) (Float64.ofInt 3)) = "0.67" ∧
      FormatFloat2 (Float64.div (Float64.ofInt 0) (Float64.ofInt 0)) = "NaN" := by
  decide

theorem derived_completeData (agg : WeekVsWeekendYearAgg) (weekday : Int) (rained : Bool)
    (n : Int) : Derived (completeData agg weekday rained n) := by
  unfold Derived completeData
  by_cases hw : weekday = Saturday ∨ weekday = Sunday <;> cases rained <;>
    simp [hw]

theorem mem_store {m : YearMap} {year : Int} {agg : WeekVsWeekendYearAgg}
    {p : Int × WeekVsWeekendYearAgg} (h : p ∈ m.store year agg) : p = (year, agg) ∨ p ∈ m := by
  induction m with
  | nil =>
    simp only [YearMap.store, List.mem_singleton] at h
    exact Or.inl h
  | cons q rest ih =>
    obtain ⟨y, a⟩ := q
    by_cases hy : y = year
    · simp only [YearMap.store, hy, if_true, List.mem_cons] at h
      rcases h with h | h
      · exact Or.inl h
      · exact Or.inr (List.mem_cons_of_mem _ h)
    · simp only [YearMap.store, hy, if_false, List.mem_cons] at h
      rcases h with h | h
      · exact Or.inr (by rw [h]; exact List.mem_cons_self _ _)
      · rcases ih h with h' | h'
        · exact Or.inl h'
        · exact Or.inr (List.mem_cons_of_mem _ h')

theorem derived_processRows (data : List Row) :
    ∀ report report' : YearMap, (∀ p ∈ report, Derived p.2) →
      processRows report data = .ok report' → ∀ p ∈ report', Derived p.2 := by
  induction data with
  | nil =>
    intro report report' hinv h
    simp only [processRows] at h
    cases h
    exact hinv
  | cons row rest ih =>
    intro report report' hinv h
    obtain ⟨mid, h1, h2⟩ := processRows_cons_ok h
    obtain ⟨y, weekdayInt, _, hmid⟩ := processRow_ok h1
    refine ih mid report' ?_ h2
    intro p hp
    rw [hmid] at hp
    rcases mem_store hp with rfl | hp'
    · exact derived_completeData _ _ _ _
    · exact hinv p hp'

theorem mem_keys_iff_lookup (m : YearMap) (year : Int) :
    year ∈ m.keys ↔ ∃ agg, m.lookup year = some agg := by
  induction m with
  | nil => simp [YearMap.keys, YearMap.lookup]
  | cons q rest ih =>
    obtain ⟨y, a⟩ := q
    by_cases hy : y = year
    · simp [YearMap.keys, YearMap.lookup, hy]
    · have hy' : ¬ year = y := fun e => hy e.symm
      simp only [YearMap.keys, List.map_cons, List.mem_cons, hy', false_or, YearMap.lookup, hy,
        if_false]
      exact ih

theorem mem_keys_store (m : YearMap) (year k : Int) (agg : WeekVsWeekendYearAgg) :
    k ∈ (m.store year agg).keys ↔ k = year ∨ k ∈ m.keys := by
  rw [mem_keys_iff_lookup, mem_keys_iff_lookup, lookup_store]
  by_cases h : year = k
  · subst h
    simp
  · have h' : ¬ k = year := fun e => h e.symm
    simp [h, h']

theorem nodup_keys_store (m : YearMap) (year : Int) (agg : WeekVsWeekendYearAgg)
    (hnd : m.keys.Nodup) : (m.store year agg).keys.Nodup := by
  induction m with
  | nil => simp [YearMap.store, YearMap.keys]
  | cons q rest ih =>
    obtain ⟨y, a⟩ := q
    have hnd' : y ∉ YearMap.keys rest ∧ (YearMap.keys rest).Nodup := by
      simpa [YearMap.keys] using hnd
    by_cases hy : y = year
    · simpa [YearMap.store, hy, YearMap.keys] using hnd
    · have hstore : YearMap.store year agg ((y, a) :: rest) =
          (y, a) :: YearMap.store year agg rest := by
        simp [YearMap.store, hy]
      rw [hstore]
      show (y :: YearMap.keys (YearMap.store year agg rest)).Nodup
      refine List.nodup_cons.mpr ⟨?_, ih hnd'.2⟩
      intro hmem
      rcases (mem_keys_store rest year y agg).mp hmem with e | e
      · exact hy e
      · exact hnd'.1 e

/-- The mapping returned by the loop is a map: its keys are pairwise distinct. -/
theorem nodup_keys_processRows (data : List Row) :
    ∀ report report' : YearMap, report.keys.Nodup →
      processRows report data = .ok report' → report'.keys.Nodup := by
  induction data with
  | nil =>
    intro report report' hnd h
    simp only [processRows] at h
    cases h
    exact hnd
  | cons row rest ih =>
    intro report report' hnd h
    obtain ⟨mid, h1, h2⟩ := processRows_cons_ok h
    obtain ⟨y, weekdayInt, _, hmid⟩ := processRow_ok h1
    refine ih mid report' ?_ h2
    rw [hmid]
    exact nodup_keys_store report y _ hnd

theorem nodup_keys_fetch {data : List Row} {report : YearMap}
    (h : fetchDataWeekVsWeekend data = .ok report) : report.keys.Nodup :=
  nodup_keys_processRows data [] report List.nodup_nil h

theorem sumDays_inWeek_eq_mondayToFriday (rs : List Bucket)
    (h : ∀ b ∈ rs, 0 ≤ b.1 ∧ b.1 ≤ 6) : sumDays inWeek rs = sumDays mondayToFriday rs := by
  apply sumDays_congr
  intro b hb
  obtain ⟨h0, h6⟩ := h b hb
  unfold inWeek onWeekend mondayToFriday
  by_cases hw : b.1 = 6 ∨ b.1 = 0
  · have : ¬ (1 ≤ b.1 ∧ b.1 ≤ 5) := by omega
    simp [hw, this]
  · have : 1 ≤ b.1 ∧ b.1 ≤ 5 := by omega
    simp [hw, this]

/-! ## Properties of the aggregation loop -/

/-- C1, as stated, fails on the row `2020-7`: the loop accepts it and counts its day
in `TotalDaysWeek` and `WetDaysWeek`, while no row of 2020 has a weekday digit in 1..5. -/
theorem week_counters_include_weekday_seven :
    fetchDataWeekVsWeekend [⟨"2020-7", true, 1⟩] = .ok [(2020, oneWetWeekDayAgg)] ∧
      oneWetWeekDayAgg.TotalDaysWeek = 1 ∧ oneWetWeekDayAgg.WetDaysWeek = 1 ∧
      wrapInt (sumDays mondayToFriday (rowsOfYear 2020 [⟨"2020-7", true, 1⟩])) = 0 ∧
      wrapInt (sumDays (fun b => mondayToFriday b && b.2.1)
        (rowsOfYear 2020 [⟨"2020-7", true, 1⟩])) = 0 := by
  refine ⟨rfl, rfl, rfl, ?_, ?_⟩ <;> decide

/-- C1, amended: for every list of bucket rows that the loop accepts and every year of
the returned mapping, `TotalDaysWeekend` is the sum of `NumberOfDays` over the rows of
the year whose weekday number is 0 or 6 and `WetDaysWeekend` that sum over the rained
ones; `TotalDaysWeek` and `WetDaysWeek` are the same sums over all other rows of the
year, which are the rows with weekday 1..5 when every weekday number lies in 0..6.
The sums are sums of Go `int`, the mathematical sums when none of them overflows. -/
theorem counters_are_sums_of_rows (data : List Row) (report : YearMap) (year : Int)
    (agg : WeekVsWeekendYearAgg) (h : fetchDataWeekVsWeekend data = .ok report)
    (hy : report.lookup year = some agg) :
    agg.TotalDaysWeekend = wrapInt (sumDays onWeekend (rowsOfYear year data)) ∧
      agg.WetDaysWeekend = wrapInt (sumDays wetOnWeekend (rowsOfYear year data)) ∧
      agg.TotalDaysWeek = wrapInt (sumDays inWeek (rowsOfYear year data)) ∧
      agg.WetDaysWeek = wrapInt (sumDays wetInWeek (rowsOfYear year data)) ∧
      ((∀ b ∈ rowsOfYear year data, 0 ≤ b.1 ∧ b.1 ≤ 6) →
        agg.TotalDaysWeek = wrapInt (sumDays mondayToFriday (rowsOfYear year data)) ∧
        agg.WetDaysWeek =
          wrapInt (sumDays (fun b => mondayToFriday b && b.2.1) (rowsOfYear year data))) ∧
      ((∀ p, InRange (sumDays p (rowsOfYear year data))) →
        agg.TotalDaysWeekend = sumDays onWeekend (rowsOfYear year data) ∧
        agg.WetDaysWeekend = sumDays wetOnWeekend (rowsOfYear year data) ∧
        agg.TotalDaysWeek = sumDays inWeek (rowsOfYear year data) ∧
        agg.WetDaysWeek = sumDays wetInWeek (rowsOfYear year data)) := by
  obtain ⟨_, hagg⟩ := summary_of_lookup h hy
  subst hagg
  refine ⟨rfl, rfl, rfl, rfl, ?_, ?_⟩
  · intro hb
    constructor
    · show wrapInt (sumDays inWeek (rowsOfYear year data)) = _
      rw [sumDays_inWeek_eq_mondayToFriday _ hb]
    · show wrapInt (sumDays wetInWeek (rowsOfYear year data)) = _
      congr 1
      apply sumDays_congr
      intro b hmem
      obtain ⟨h0, h6⟩ := hb b hmem
      unfold wetInWeek inWeek onWeekend mondayToFriday
      by_cases hw : b.1 = 6 ∨ b.1 = 0
      · have : ¬ (1 ≤ b.1 ∧ b.1 ≤ 5) := by omega
        simp [hw, this]
      · have : 1 ≤ b.1 ∧ b.1 ≤ 5 := by omega
        simp [hw, this]
  · intro hr
    exact ⟨wrapInt_of_inRange (hr _), wrapInt_of_inRange (hr _), wrapInt_of_inRange (hr _),
      wrapInt_of_inRange (hr _)⟩

/-- The scenario of the specification as an instance of `counters_are_sums_of_rows`:
one wet day out of two at the weekend, one wet day out of one during the week. -/
theorem counters_are_sums_of_rows_scenario :
    fetchDataWeekVsWeekend scenario2020 = .ok [(2020, scenario2020Agg)] ∧
      YearMap.lookup 2020 [(2020, scenario2020Agg)] = some scenario2020Agg ∧
      scenario2020Agg.TotalDaysWeekend = wrapInt (sumDays onWeekend (rowsOfYear 2020 scenario2020)) ∧
      scenario2020Agg.WetDaysWeekend =
        wrapInt (sumDays wetOnWeekend (rowsOfYear 2020 scenario2020)) ∧
      scenario2020Agg.TotalDaysWeek = wrapInt (sumDays inWeek (rowsOfYear 2020 scenario2020)) ∧
      scenario2020Agg.WetDaysWeek = wrapInt (sumDays wetInWeek (rowsOfYear 2020 scenario2020)) ∧
      scenario2020Agg.WetDaysWeekend = 1 ∧ scenario2020Agg.TotalDaysWeekend = 2 ∧
      scenario2020Agg.WetDaysWeek = 1 ∧ scenario2020Agg.TotalDaysWeek = 1 :=
  have key := counters_are_sums_of_rows scenario2020 [(2020, scenario2020Agg)] 2020
    scenario2020Agg rfl rfl
  ⟨rfl, rfl, key.1, key.2.1, key.2.2.1, key.2.2.2.1, rfl, rfl, rfl, rfl⟩

/-- C2: for every list of bucket rows that the loop accepts and every year of the
returned mapping, `ChanceOfRain` is the quotient of the final `TotalWetDays` and
`TotalDays`, `ChanceOfRainDuringWeek` that of `WetDaysWeek` and `TotalDaysWeek` when
`TotalDaysWeek > 0`, `ChanceOfRainDuringWeekend` that of `WetDaysWeekend` and
`TotalDaysWeekend` when `TotalDaysWeekend > 0`, and `WeekendMoreWet` holds exactly when
`ChanceOfRainDuringWeekend > ChanceOfRainDuringWeek`. -/
theorem ratios_are_quotients_of_final_counts (data : List Row) (report : YearMap) (year : Int)
    (agg : WeekVsWeekendYearAgg) (h : fetchDataWeekVsWeekend data = .ok report)
    (hy : report.lookup year = some agg) :
    agg.ChanceOfRain =
        Float64.div (Float64.ofInt agg.TotalWetDays) (Float64.ofInt agg.TotalDays) ∧
      (0 < agg.TotalDaysWeek → agg.ChanceOfRainDuringWeek =
        Float64.div (Float64.ofInt agg.WetDaysWeek) (Float64.ofInt agg.TotalDaysWeek)) ∧
      (0 < agg.TotalDaysWeekend → agg.ChanceOfRainDuringWeekend =
        Float64.div (Float64.ofInt agg.WetDaysWeekend) (Float64.ofInt agg.TotalDaysWeekend)) ∧
      (agg.WeekendMoreWet = true ↔
        Float64.gt agg.ChanceOfRainDuringWeekend agg.ChanceOfRainDuringWeek = true) := by
  obtain ⟨hne, hagg⟩ := summary_of_lookup h hy
  subst hagg
  refine ⟨?_, ?_, ?_, ?_⟩
  · simp only [summary, hne, Bool.false_eq_true, if_false]
  · intro hpos
    cases hany : (rowsOfYear year data).any inWeek with
    | true => simp only [summary, hany, if_true]
    | false =>
      have h0 := sumDays_eq_zero_of_any_false inWeek _ hany
      simp only [summary, h0, wrapInt_zero] at hpos
      exact absurd hpos (by decide)
  · intro hpos
    cases hany : (rowsOfYear year data).any onWeekend with
    | true => simp only [summary, hany, if_true]
    | false =>
      have h0 := sumDays_eq_zero_of_any_false onWeekend _ hany
      simp only [summary, h0, wrapInt_zero] at hpos
      exact absurd hpos (by decide)
  · simp only [summary]

/-- The scenario of the specification as an instance of
`ratios_are_quotients_of_final_counts`: weekend 0.5, week 1.0, weekend not more wet. -/
theorem ratios_are_quotients_scenario :
    fetchDataWeekVsWeekend scenario2020 = .ok [(2020, scenario2020Agg)] ∧
      YearMap.lookup 2020 [(2020, scenario2020Agg)] = some scenario2020Agg ∧
      0 < scenario2020Agg.TotalDaysWeek ∧ 0 < scenario2020Agg.TotalDaysWeekend ∧
      scenario2020Agg.ChanceOfRainDuringWeek = Float64.div (Float64.ofInt 1) (Float64.ofInt 1) ∧
      scenario2020Agg.ChanceOfRainDuringWeekend =
        Float64.div (Float64.ofInt 1) (Float64.ofInt 2) ∧
      scenario2020Agg.ChanceOfRainDuringWeekend = .fin false 1 (-1) ∧
      scenario2020Agg.ChanceOfRainDuringWeek = .fin false 1 0 ∧
      scenario2020Agg.WeekendMoreWet = false :=
  have key := ratios_are_quotients_of_final_counts scenario2020 [(2020, scenario2020Agg)] 2020
    scenario2020Agg rfl rfl
  ⟨rfl, rfl, by decide, by decide, key.2.1 (by decide), key.2.2.1 (by decide), rfl, rfl, rfl⟩

/-- C3: for every list of bucket rows that the loop accepts, after every part
`processed` of it that has been processed (the rows `remaining` still to come), the
loop holds a mapping in which every stored aggregate satisfies
`TotalDays = TotalDaysWeek + TotalDaysWeekend` and
`TotalWetDays = WetDaysWeek + WetDaysWeekend`, with `+` of Go `int`, which is the
mathematical sum when that is a value of `int`. -/
theorem totals_are_sums_after_every_row (data processed remaining : List Row) (report : YearMap)
    (h : fetchDataWeekVsWeekend data = .ok report) (hsplit : data = processed ++ remaining) :
    ∃ mid, fetchDataWeekVsWeekend processed = .ok mid ∧
      processRows mid remaining = .ok report ∧
      ∀ p ∈ mid,
        p.2.TotalDays = addInt p.2.TotalDaysWeek p.2.TotalDaysWeekend ∧
        p.2.TotalWetDays = addInt p.2.WetDaysWeek p.2.WetDaysWeekend ∧
        (InRange (p.2.TotalDaysWeek + p.2.TotalDaysWeekend) →
          p.2.TotalDays = p.2.TotalDaysWeek + p.2.TotalDaysWeekend) ∧
        (InRange (p.2.WetDaysWeek + p.2.WetDaysWeekend) →
          p.2.TotalWetDays = p.2.WetDaysWeek + p.2.WetDaysWeekend) := by
  subst hsplit
  unfold fetchDataWeekVsWeekend at h ⊢
  rw [processRows_append] at h
  cases hm : processRows [] processed with
  | error e => rw [hm] at h; cases h
  | ok mid =>
    rw [hm] at h
    refine ⟨mid, rfl, h, ?_⟩
    intro p hp
    obtain ⟨h1, h2⟩ := derived_processRows processed [] mid (fun q hq => by cases hq) hm p hp
    refine ⟨h1, h2, ?_, ?_⟩
    · intro hr
      rw [h1]
      exact wrapInt_of_inRange hr
    · intro hr
      rw [h2]
      exact wrapInt_of_inRange hr

/-- The scenario of the specification after its first two rows, as an instance of
`totals_are_sums_after_every_row`. -/
theorem totals_are_sums_scenario :
    fetchDataWeekVsWeekend scenario2020 = .ok [(2020, scenario2020Agg)] ∧
      scenario2020 = [⟨"2020-6", true, 1⟩, ⟨"2020-0", false, 1⟩] ++ [⟨"2020-1", true, 1⟩] ∧
      ∃ mid, fetchDataWeekVsWeekend [⟨"2020-6", true, 1⟩, ⟨"2020-0", false, 1⟩] = .ok mid ∧
        processRows mid [⟨"2020-1", true, 1⟩] = .ok [(2020, scenario2020Agg)] ∧
        ∀ p ∈ mid,
          p.2.TotalDays = addInt p.2.TotalDaysWeek p.2.TotalDaysWeekend ∧
          p.2.TotalWetDays = addInt p.2.WetDaysWeek p.2.WetDaysWeekend ∧
          (InRange (p.2.TotalDaysWeek + p.2.TotalDaysWeekend) →
            p.2.TotalDays = p.2.TotalDaysWeek + p.2.TotalDaysWeekend) ∧
          (InRange (p.2.WetDaysWeek + p.2.WetDaysWeekend) →
            p.2.TotalWetDays = p.2.WetDaysWeek + p.2.WetDaysWeekend) :=
  ⟨rfl, rfl, totals_are_sums_after_every_row scenario2020 _ _ [(2020, scenario2020Agg)] rfl rfl⟩

/-- C4: the aggregation loop is independent of the order of the rows: when it accepts
a list of bucket rows it accepts every permutation of the list, and the two returned
mappings have the same keys and, for each year, the same aggregate in all ten fields;
with the list itself as permutation, two runs on the same rows agree. -/
theorem aggregation_independent_of_row_order (data data' : List Row) (report : YearMap)
    (hperm : data.Perm data') (h : fetchDataWeekVsWeekend data = .ok report) :
    ∃ report', fetchDataWeekVsWeekend data' = .ok report' ∧
      (∀ year, year ∈ report'.keys ↔ year ∈ report.keys) ∧
      (∀ year, report'.lookup year = report.lookup year) := by
  have hacc : Accepted data := accepted_of_processRows_ok data [] report h
  have hacc' : Accepted data' := fun row hrow => hacc row (hperm.mem_iff.mpr hrow)
  obtain ⟨report', h'⟩ := processRows_ok_of_accepted data' [] hacc'
  have hlook : ∀ year, YearMap.lookup year report' = YearMap.lookup year report := by
    intro year
    rw [lookup_fetch h' year, lookup_fetch h year,
      summary_perm (rowsOfYear_perm year hperm), (rowsOfYear_perm year hperm).isEmpty_eq]
  refine ⟨report', h', ?_, hlook⟩
  intro year
  rw [mem_keys_iff_lookup, mem_keys_iff_lookup, hlook year]

/-- The scenario of the specification and its reversal, as an instance of
`aggregation_independent_of_row_order`. -/
theorem aggregation_independent_of_row_order_scenario :
    scenario2020.Perm scenario2020.reverse ∧
      fetchDataWeekVsWeekend scenario2020 = .ok [(2020, scenario2020Agg)] ∧
      ∃ report', fetchDataWeekVsWeekend scenario2020.reverse = .ok report' ∧
        (∀ year, year ∈ report'.keys ↔ year ∈ YearMap.keys [(2020, scenario2020Agg)]) ∧
        (∀ year, report'.lookup year = YearMap.lookup year [(2020, scenario2020Agg)]) :=
  ⟨(List.reverse_perm scenario2020).symm, rfl,
    aggregation_independent_of_row_order scenario2020 scenario2020.reverse
      [(2020, scenario2020Agg)] (List.reverse_perm scenario2020).symm rfl⟩

/-- C5, as stated, fails on a year whose only row is a Monday: `TotalDaysWeekend` is 0
and `ChanceOfRainDuringWeekend` is never assigned; it holds the zero value `+0.0`, which
is not NaN, and `ToCsv` reports it as `0.00`. -/
theorem ratio_of_missing_weekend_is_zero :
    fetchDataWeekVsWeekend [⟨"2020-1", true, 1⟩] = .ok [(2020, oneWetWeekDayAgg)] ∧
      oneWetWeekDayAgg.TotalDaysWeekend = 0 ∧
      oneWetWeekDayAgg.ChanceOfRainDuringWeekend = Float64.zero ∧
      oneWetWeekDayAgg.ChanceOfRainDuringWeekend.isNaN = false ∧
      oneWetWeekDayAgg.ChanceOfRainDuringWeekend.isFinite = true ∧
      WeekVsWeekendReport.ToCsv ⟨2020, some oneWetWeekDayAgg, some oneWetWeekDayAgg⟩ =
        .ok ["2020", "1.00", "1.00", "0.00", "nee", "1.00", "1.00", "0.00", "nee"] := by
  exact ⟨rfl, rfl, rfl, rfl, rfl, rfl⟩

/-- C5, amended: for every year of the returned mapping whose final `TotalDaysWeekend`
is 0, `ChanceOfRainDuringWeekend` keeps the zero value `+0.0`, reported as `0.00`, when
no weekend row of the year was merged (a year whose rows are all weekdays), and it is
the result of a division by zero, NaN or an infinity, when a weekend row was merged;
respectively for `TotalDaysWeek` and `ChanceOfRainDuringWeek`. -/
theorem ratio_of_empty_scope (data : List Row) (report : YearMap) (year : Int)
    (agg : WeekVsWeekendYearAgg) (h : fetchDataWeekVsWeekend data = .ok report)
    (hy : report.lookup year = some agg) :
    (agg.TotalDaysWeekend = 0 →
        ((rowsOfYear year data).any onWeekend = false →
          agg.ChanceOfRainDuringWeekend = Float64.zero ∧
            FormatFloat2 agg.ChanceOfRainDuringWeekend = "0.00") ∧
        ((rowsOfYear year data).any onWeekend = true →
          agg.ChanceOfRainDuringWeekend =
              Float64.div (Float64.ofInt agg.WetDaysWeekend) (Float64.ofInt 0) ∧
            agg.ChanceOfRainDuringWeekend.isFinite = false)) ∧
      (agg.TotalDaysWeek = 0 →
        ((rowsOfYear year data).any inWeek = false →
          agg.ChanceOfRainDuringWeek = Float64.zero ∧
            FormatFloat2 agg.ChanceOfRainDuringWeek = "0.00") ∧
        ((rowsOfYear year data).any inWeek = true →
          agg.ChanceOfRainDuringWeek =
              Float64.div (Float64.ofInt agg.WetDaysWeek) (Float64.ofInt 0) ∧
            agg.ChanceOfRainDuringWeek.isFinite = false)) := by
  obtain ⟨_, hagg⟩ := summary_of_lookup h hy
  subst hagg
  have hfmt : FormatFloat2 Float64.zero = "0.00" := by decide
  constructor
  · intro hz
    constructor
    · intro hany
      have hc : (summary (rowsOfYear year data)).ChanceOfRainDuringWeekend = Float64.zero := by
        simp only [summary, hany, Bool.false_eq_true, if_false]
      rw [hc]
      exact ⟨rfl, hfmt⟩
    · intro hany
      have hz' : wrapInt (sumDays onWeekend (rowsOfYear year data)) = 0 := hz
      have hc : (summary (rowsOfYear year data)).ChanceOfRainDuringWeekend =
          Float64.div (Float64.ofInt (summary (rowsOfYear year data)).WetDaysWeekend)
            (Float64.ofInt 0) := by
        simp only [summary, hany, if_true, hz']
      rw [hc]
      exact ⟨rfl, div_ofInt_zero_not_finite _⟩
  · intro hz
    constructor
    · intro hany
      have hc : (summary (rowsOfYear year data)).ChanceOfRainDuringWeek = Float64.zero := by
        simp only [summary, hany, Bool.false_eq_true, if_false]
      rw [hc]
      exact ⟨rfl, hfmt⟩
    · intro hany
      have hz' : wrapInt (sumDays inWeek (rowsOfYear year data)) = 0 := hz
      have hc : (summary (rowsOfYear year data)).ChanceOfRainDuringWeek =
          Float64.div (Float64.ofInt (summary (rowsOfYear year data)).WetDaysWeek)
            (Float64.ofInt 0) := by
        simp only [summary, hany, if_true, hz']
      rw [hc]
      exact ⟨rfl, div_ofInt_zero_not_finite _⟩

/-- A year with Monday rows only, and a year with an empty Saturday bucket, as
instances of `ratio_of_empty_scope`: the weekend ratio is `+0.0` in the first and NaN
in the second. -/
theorem ratio_of_empty_scope_examples :
    (fetchDataWeekVsWeekend [⟨"2021-1", false, 3⟩] = .ok [(2021, threeDryWeekDaysAgg)] ∧
      YearMap.lookup 2021 [(2021, threeDryWeekDaysAgg)] = some threeDryWeekDaysAgg ∧
      threeDryWeekDaysAgg.TotalDaysWeekend = 0 ∧
      (rowsOfYear 2021 [⟨"2021-1", false, 3⟩]).any onWeekend = false ∧
      threeDryWeekDaysAgg.ChanceOfRainDuringWeekend = Float64.zero ∧
      FormatFloat2 threeDryWeekDaysAgg.ChanceOfRainDuringWeekend = "0.00") ∧
    (fetchDataWeekVsWeekend [⟨"2021-6", false, 0⟩] = .ok [(2021, emptyWeekendBucketAgg)] ∧
      YearMap.lookup 2021 [(2021, emptyWeekendBucketAgg)] = some emptyWeekendBucketAgg ∧
      emptyWeekendBucketAgg.TotalDaysWeekend = 0 ∧
      (rowsOfYear 2021 [⟨"2021-6", false, 0⟩]).any onWeekend = true ∧
      emptyWeekendBucketAgg.ChanceOfRainDuringWeekend.isFinite = false) :=
  have first := ratio_of_empty_scope [⟨"2021-1", false, 3⟩] [(2021, threeDryWeekDaysAgg)] 2021
    threeDryWeekDaysAgg rfl rfl
  have second := ratio_of_empty_scope [⟨"2021-6", false, 0⟩] [(2021, emptyWeekendBucketAgg)] 2021
    emptyWeekendBucketAgg rfl rfl
  have hfirst := (first.1 rfl).1 (by decide)
  ⟨⟨rfl, rfl, rfl, by decide, hfirst.1, hfirst.2⟩,
    ⟨rfl, rfl, rfl, by decide, ((second.1 rfl).2 (by decide)).2⟩⟩

/-! ## The report assembly -/

theorem mem_insertSorted {r y : WeekVsWeekendReport} {xs : List WeekVsWeekendReport} :
    y ∈ insertSorted r xs ↔ y = r ∨ y ∈ xs := by
  induction xs with
  | nil => simp [insertSorted]
  | cons x xs ih =>
    unfold insertSorted
    split
    · simp only [List.mem_cons, ih]
      tauto
    · simp only [List.mem_cons]

theorem perm_insertSorted (r : WeekVsWeekendReport) (xs : List WeekVsWeekendReport) :
    (insertSorted r xs).Perm (r :: xs) := by
  induction xs with
  | nil => exact List.Perm.refl _
  | cons x xs ih =>
    unfold insertSorted
    split
    · exact (ih.cons x).trans (List.Perm.swap r x xs)
    · exact List.Perm.refl _

theorem perm_sortSlice (reports : List WeekVsWeekendReport) :
    (sortSlice reports).Perm reports := by
  induction reports with
  | nil => exact List.Perm.refl _
  | cons r rs ih =>
    show (insertSorted r (sortSlice rs)).Perm (r :: rs)
    exact (perm_insertSorted r _).trans (ih.cons r)

theorem ordered_insertSorted (r : WeekVsWeekendReport) (xs : List WeekVsWeekendReport)
    (h : xs.Pairwise fun a b => a.Year ≤ b.Year) :
    (insertSorted r xs).Pairwise fun a b => a.Year ≤ b.Year := by
  induction xs with
  | nil => simp [insertSorted]
  | cons x xs ih =>
    obtain ⟨hx, hxs⟩ := List.pairwise_cons.mp h
    unfold insertSorted
    split
    · rename_i hlt
      have hlt' : x.Year < r.Year := by simpa [less] using hlt
      refine List.pairwise_cons.mpr ⟨?_, ih hxs⟩
      intro y hy
      rcases mem_insertSorted.mp hy with rfl | hy'
      · exact le_of_lt hlt'
      · exact hx y hy'
    · rename_i hlt
      have hge : r.Year ≤ x.Year := by
        have : ¬ x.Year < r.Year := by simpa [less] using hlt
        omega
      refine List.pairwise_cons.mpr ⟨?_, h⟩
      intro y hy
      rcases List.mem_cons.mp hy with rfl | hy'
      · exact hge
      · exact le_trans hge (hx y hy')

theorem ordered_sortSlice (reports : List WeekVsWeekendReport) :
    (sortSlice reports).Pairwise fun a b => a.Year ≤ b.Year := by
  induction reports with
  | nil => exact List.Pairwise.nil
  | cons r rs ih => exact ordered_insertSorted r _ ih

theorem years_collectReports (wholeDay dayTime : YearMap) :
    (collectReports wholeDay dayTime).map (fun r => r.Year) = wholeDay.keys := by
  simp [collectReports, YearMap.keys, List.map_map, Function.comp_def]

theorem years_mergeReports_perm (wholeDay dayTime : YearMap) :
    ((mergeReports wholeDay dayTime).map fun r => r.Year).Perm wholeDay.keys := by
  rw [← years_collectReports wholeDay dayTime]
  exact (perm_sortSlice _).map _

theorem years_mergeReports_ascending (wholeDay dayTime : YearMap) (hnd : wholeDay.keys.Nodup) :
    ((mergeReports wholeDay dayTime).map fun r => r.Year).Pairwise (fun a b => a < b) := by
  have hle : ((mergeReports wholeDay dayTime).map fun r => r.Year).Pairwise
      (fun a b => a ≤ b) := by
    rw [List.pairwise_map]
    exact ordered_sortSlice _
  have hne : ((mergeReports wholeDay dayTime).map fun r => r.Year).Pairwise
      (fun a b => a ≠ b) :=
    (years_mergeReports_perm wholeDay dayTime).symm.nodup hnd
  exact (hle.and hne).imp (fun h => lt_of_le_of_ne h.1 h.2)

theorem lookup_of_mem_of_nodup (m : YearMap) (hnd : m.keys.Nodup) (year : Int)
    (agg : WeekVsWeekendYearAgg) (hmem : (year, agg) ∈ m) : m.lookup year = some agg := by
  induction m with
  | nil => cases hmem
  | cons q rest ih =>
    obtain ⟨y, a⟩ := q
    simp only [YearMap.keys, List.map_cons, List.nodup_cons] at hnd
    rcases List.mem_cons.mp hmem with heq | hrest
    · cases heq
      simp [YearMap.lookup]
    · have hy : y ≠ year := by
        intro e
        apply hnd.1
        rw [e]
        exact List.mem_map_of_mem Prod.fst hrest
      simp only [YearMap.lookup, hy, if_false]
      exact ih hnd.2 hrest

theorem mem_mergeReports {wholeDay dayTime : YearMap} {rep : WeekVsWeekendReport}
    (h : rep ∈ mergeReports wholeDay dayTime) :
    ∃ agg, (rep.Year, agg) ∈ wholeDay ∧ rep.WholeDay = some agg ∧
      rep.DuringDaytime = dayTime.lookup rep.Year := by
  have h' : rep ∈ collectReports wholeDay dayTime := (perm_sortSlice _).mem_iff.mp h
  unfold collectReports at h'
  obtain ⟨p, hp, rfl⟩ := List.mem_map.mp h'
  exact ⟨p.2, hp, rfl, rfl⟩

theorem appendCsvRows_error (reports : List WeekVsWeekendReport) :
    ∀ csvReport : List (List String),
      (∃ rep ∈ reports, rep.ToCsv = .error .nilPointerDereference) →
      appendCsvRows csvReport reports = .error .nilPointerDereference := by
  induction reports with
  | nil => intro _ h; obtain ⟨_, hmem, _⟩ := h; cases hmem
  | cons r rs ih =>
    intro csvReport h
    obtain ⟨rep, hmem, herr⟩ := h
    unfold appendCsvRows
    cases hr : r.ToCsv with
    | error e => cases e; rfl
    | ok row =>
      simp only
      rcases List.mem_cons.mp hmem with rfl | hmem'
      · rw [hr] at herr; cases herr
      · exact ih _ ⟨rep, hmem', herr⟩

theorem appendCsvRows_ok (reports : List WeekVsWeekendReport) :
    ∀ csvReport : List (List String),
      (∀ rep ∈ reports, ∃ row, rep.ToCsv = .ok row) →
      ∃ rows, appendCsvRows csvReport reports = .ok (csvReport ++ rows) ∧
        List.Forall₂ (fun rep row => rep.ToCsv = .ok row) reports rows := by
  induction reports with
  | nil => intro csvReport _; exact ⟨[], by simp [appendCsvRows], List.Forall₂.nil⟩
  | cons r rs ih =>
    intro csvReport h
    obtain ⟨row, hrow⟩ := h r (List.mem_cons_self _ _)
    obtain ⟨rows, hrows, hall⟩ := ih (csvReport ++ [row])
      (fun rep hrep => h rep (List.mem_cons_of_mem _ hrep))
    refine ⟨row :: rows, ?_, List.Forall₂.cons hrow hall⟩
    simp only [appendCsvRows, hrow, hrows, List.append_assoc, List.singleton_append]

theorem toCsv_ok_of_pointers (rep : WeekVsWeekendReport) (w d : WeekVsWeekendYearAgg)
    (hw : rep.WholeDay = some w) (hd : rep.DuringDaytime = some d) :
    ∃ row, rep.ToCsv = .ok row ∧ row.head? = some (Itoa rep.Year) := by
  unfold WeekVsWeekendReport.ToCsv
  rw [hw, hd]
  exact ⟨_, rfl, rfl⟩

theorem toCsv_error_of_nil (rep : WeekVsWeekendReport) (hd : rep.DuringDaytime = none) :
    rep.ToCsv = .error .nilPointerDereference := by
  unfold WeekVsWeekendReport.ToCsv
  rw [hd]
  cases rep.WholeDay <;> rfl

theorem report_ok_of_matching (wholeDay dayTime : YearMap) (hmatch : Matching wholeDay dayTime) :
    ∃ rows, reportWeekVsWeekend wholeDay dayTime = .ok (csvHeader :: rows) ∧
      List.Forall₂ (fun rep row => rep.ToCsv = .ok row) (mergeReports wholeDay dayTime) rows := by
  have hall : ∀ rep ∈ mergeReports wholeDay dayTime, ∃ row, rep.ToCsv = .ok row := by
    intro rep hrep
    obtain ⟨agg, hmem, hw, hd⟩ := mem_mergeReports hrep
    have hkey : rep.Year ∈ wholeDay.keys := List.mem_map_of_mem Prod.fst hmem
    obtain ⟨d, hd'⟩ := Option.isSome_iff_exists.mp (hmatch rep.Year hkey)
    obtain ⟨row, hrow, _⟩ := toCsv_ok_of_pointers rep agg d hw (hd.trans hd')
    exact ⟨row, hrow⟩
  obtain ⟨rows, hrows, hf⟩ := appendCsvRows_ok _ [csvHeader] hall
  exact ⟨rows, hrows, hf⟩

/-- The iteration order of the whole-day map has no influence on the merged reports. -/
theorem mergeReports_iteration_order (wholeDay wholeDay' dayTime : YearMap)
    (hnd : wholeDay.keys.Nodup) (hperm : wholeDay'.Perm wholeDay) :
    mergeReports wholeDay' dayTime = mergeReports wholeDay dayTime := by
  have hnd' : wholeDay'.keys.Nodup := (hperm.map Prod.fst).symm.nodup hnd
  have hp : (mergeReports wholeDay' dayTime).Perm (mergeReports wholeDay dayTime) :=
    ((perm_sortSlice _).trans (hperm.map _)).trans (perm_sortSlice _).symm
  have hs := List.pairwise_map.mp (years_mergeReports_ascending wholeDay dayTime hnd)
  have hs' := List.pairwise_map.mp (years_mergeReports_ascending wholeDay' dayTime hnd')
  have anti : IsAntisymm WeekVsWeekendReport (fun a b => a.Year < b.Year) :=
    ⟨fun a b hab hba => absurd hab (not_lt_of_gt hba)⟩
  exact List.eq_of_perm_of_sorted hp hs' hs

/-- C6: whenever some year is a key of the whole-day mapping but not of the daytime
mapping, the report assembly aborts: `ToCsv` panics on the nil daytime pointer of the
report of that year, so no row with defaulted daytime values is produced for it, and
the panic ends `reportWeekVsWeekend` before the CSV file is created. -/
theorem report_aborts_on_year_missing_from_daytime (wholeDay dayTime : YearMap) (year : Int)
    (hkey : year ∈ wholeDay.keys) (hmiss : dayTime.lookup year = none) :
    reportWeekVsWeekend wholeDay dayTime = .error .nilPointerDereference ∧
      (∃ rep ∈ mergeReports wholeDay dayTime, rep.Year = year) ∧
      ∀ rep ∈ mergeReports wholeDay dayTime, rep.Year = year →
        rep.DuringDaytime = none ∧ rep.ToCsv = .error .nilPointerDereference := by
  have hall : ∀ rep ∈ mergeReports wholeDay dayTime, rep.Year = year →
      rep.DuringDaytime = none ∧ rep.ToCsv = .error .nilPointerDereference := by
    intro rep hrep hyear
    obtain ⟨_, _, _, hd⟩ := mem_mergeReports hrep
    have hnil : rep.DuringDaytime = none := by rw [hd, hyear, hmiss]
    exact ⟨hnil, toCsv_error_of_nil rep hnil⟩
  have hex : ∃ rep ∈ mergeReports wholeDay dayTime, rep.Year = year := by
    have : year ∈ (mergeReports wholeDay dayTime).map fun r => r.Year :=
      (years_mergeReports_perm wholeDay dayTime).mem_iff.mpr hkey
    obtain ⟨rep, hrep, hyear⟩ := List.mem_map.mp this
    exact ⟨rep, hrep, hyear⟩
  refine ⟨?_, hex, hall⟩
  obtain ⟨rep, hrep, hyear⟩ := hex
  exact appendCsvRows_error _ _ ⟨rep, hrep, (hall rep hrep hyear).2⟩

/-- The years 2020 and 2021 in the whole-day mapping and only 2020 in the daytime
mapping, as an instance of `report_aborts_on_year_missing_from_daytime`. -/
theorem report_aborts_on_missing_2021 :
    (2021 : Int) ∈ YearMap.keys [(2020, scenario2020Agg), (2021, scenario2020Agg)] ∧
      YearMap.lookup 2021 [(2020, scenario2020Agg)] = none ∧
      reportWeekVsWeekend [(2020, scenario2020Agg), (2021, scenario2020Agg)]
        [(2020, scenario2020Agg)] = .error .nilPointerDereference :=
  ⟨by decide, rfl,
    (report_aborts_on_year_missing_from_daytime [(2020, scenario2020Agg), (2021, scenario2020Agg)]
      [(2020, scenario2020Agg)] 2021 (by decide) rfl).1⟩

/-- C7, as stated, fails: with 2020 in both mappings and 2021 in the daytime mapping
only, the report is produced without any error, and it has no row for 2021. -/
theorem report_omits_year_of_daytime_only :
    reportWeekVsWeekend [(2020, scenario2020Agg)]
        [(2020, scenario2020Agg), (2021, scenario2020Agg)] =
      .ok [csvHeader, ["2020", "0.67", "1.00", "0.50", "nee", "0.67", "1.00", "0.50", "nee"]] := by
  rfl

/-- C7, amended: the years are not matched in the other direction.  For every pair of
mappings in which every year of the whole-day mapping is a key of the daytime mapping,
a year that is a key of the daytime mapping only raises no error: the report is
produced, with one row per report of the whole-day years and none for that year. -/
theorem report_ignores_year_of_daytime_only (wholeDay dayTime : YearMap) (year : Int)
    (hmatch : Matching wholeDay dayTime) (_hday : year ∈ dayTime.keys)
    (hnot : year ∉ wholeDay.keys) :
    ∃ rows, reportWeekVsWeekend wholeDay dayTime = .ok (csvHeader :: rows) ∧
      List.Forall₂ (fun rep row => rep.ToCsv = .ok row) (mergeReports wholeDay dayTime) rows ∧
      rows.length = wholeDay.length ∧
      ∀ rep ∈ mergeReports wholeDay dayTime, rep.Year ≠ year := by
  obtain ⟨rows, hrows, hf⟩ := report_ok_of_matching wholeDay dayTime hmatch
  refine ⟨rows, hrows, hf, ?_, ?_⟩
  · rw [← hf.length_eq]
    have := (years_mergeReports_perm wholeDay dayTime).length_eq
    simpa [YearMap.keys] using this
  · intro rep hrep hyear
    apply hnot
    rw [← hyear]
    exact (years_mergeReports_perm wholeDay dayTime).mem_iff.mp
      (List.mem_map_of_mem (fun r => r.Year) hrep)

/-- The year 2021 in the daytime mapping only, as an instance of
`report_ignores_year_of_daytime_only`. -/
theorem report_ignores_2021_of_daytime_only :
    Matching [(2020, scenario2020Agg)] [(2020, scenario2020Agg), (2021, scenario2020Agg)] ∧
      (2021 : Int) ∈ YearMap.keys [(2020, scenario2020Agg), (2021, scenario2020Agg)] ∧
      (2021 : Int) ∉ YearMap.keys [(2020, scenario2020Agg)] ∧
      ∃ rows, reportWeekVsWeekend [(2020, scenario2020Agg)]
          [(2020, scenario2020Agg), (2021, scenario2020Agg)] = .ok (csvHeader :: rows) ∧
        List.Forall₂ (fun rep row => rep.ToCsv = .ok row)
          (mergeReports [(2020, scenario2020Agg)]
            [(2020, scenario2020Agg), (2021, scenario2020Agg)]) rows ∧
        rows.length = [(2020, scenario2020Agg)].length ∧
        ∀ rep ∈ mergeReports [(2020, scenario2020Agg)]
          [(2020, scenario2020Agg), (2021, scenario2020Agg)], rep.Year ≠ 2021 :=
  ⟨by decide, by decide, by decide,
    report_ignores_year_of_daytime_only [(2020, scenario2020Agg)]
      [(2020, scenario2020Agg), (2021, scenario2020Agg)] 2021 (by decide) (by decide)
      (by decide)⟩

/-- C8: for every whole-day mapping and every daytime mapping that has all its years,
the reports built by `reportWeekVsWeekend` are exactly one per year key of the whole-day
mapping, each joining the two aggregates of its year, and they are sorted strictly
ascending by `Year`, so no year appears twice; the CSV content is the header followed
by the rows of the reports in that same order. -/
theorem report_rows_one_per_year_ascending (wholeDay dayTime : YearMap)
    (hnd : wholeDay.keys.Nodup) (hmatch : Matching wholeDay dayTime) :
    ((mergeReports wholeDay dayTime).map fun r => r.Year).Perm wholeDay.keys ∧
      ((mergeReports wholeDay dayTime).map fun r => r.Year).Pairwise (fun a b => a < b) ∧
      (∀ rep ∈ mergeReports wholeDay dayTime,
        rep.WholeDay = wholeDay.lookup rep.Year ∧ rep.DuringDaytime = dayTime.lookup rep.Year) ∧
      ∃ rows, reportWeekVsWeekend wholeDay dayTime = .ok (csvHeader :: rows) ∧
        List.Forall₂ (fun rep row => rep.ToCsv = .ok row ∧ row.head? = some (Itoa rep.Year))
          (mergeReports wholeDay dayTime) rows := by
  refine ⟨years_mergeReports_perm wholeDay dayTime,
    years_mergeReports_ascending wholeDay dayTime hnd, ?_, ?_⟩
  · intro rep hrep
    obtain ⟨agg, hmem, hw, hd⟩ := mem_mergeReports hrep
    exact ⟨by rw [hw, lookup_of_mem_of_nodup wholeDay hnd rep.Year agg hmem], hd⟩
  · obtain ⟨rows, hrows, hf⟩ := report_ok_of_matching wholeDay dayTime hmatch
    refine ⟨rows, hrows, ?_⟩
    refine hf.imp ?_
    intro rep row hrow
    refine ⟨hrow, ?_⟩
    unfold WeekVsWeekendReport.ToCsv at hrow
    split at hrow
    · cases hrow
      rfl
    · cases hrow

/-- The years 2021 and 2020, iterated in that order, as an instance of
`report_rows_one_per_year_ascending`: the row of 2020 comes first. -/
theorem report_rows_of_2021_and_2020 :
    (YearMap.keys [(2021, scenario2020Agg), (2020, scenario2020Agg)]).Nodup ∧
      Matching [(2021, scenario2020Agg), (2020, scenario2020Agg)]
        [(2020, scenario2020Agg), (2021, scenario2020Agg)] ∧
      ((mergeReports [(2021, scenario2020Agg), (2020, scenario2020Agg)]
          [(2020, scenario2020Agg), (2021, scenario2020Agg)]).map fun r => r.Year) = [2020, 2021] ∧
      ((mergeReports [(2021, scenario2020Agg), (2020, scenario2020Agg)]
          [(2020, scenario2020Agg), (2021, scenario2020Agg)]).map fun r => r.Year).Pairwise
        (fun a b => a < b) :=
  ⟨by decide, by decide, rfl,
    (report_rows_one_per_year_ascending [(2021, scenario2020Agg), (2020, scenario2020Agg)]
      [(2020, scenario2020Agg), (2021, scenario2020Agg)] (by decide) (by decide)).2.1⟩

/-! ## Malformed keys -/

theorem extractDateParts_ok_iff (s : String) :
    (∃ k, extractDateParts s = .ok k) ↔ IsYearWeekday s := by
  constructor
  · rintro ⟨k, hk⟩
    unfold extractDateParts at hk
    split at hk
    · rename_i p0 p1 hsplit
      obtain ⟨hs, h0, h1⟩ := split_eq_pair '-' _ p0 p1 hsplit
      split at hk
      · cases hk
      · rename_i year hyear
        split at hk
        · cases hk
        · rename_i weekdayInt hweekday
          exact ⟨p0, p1, hs, isIntegerText_of_Atoi p0 year hyear h0,
            isIntegerText_of_Atoi p1 weekdayInt hweekday h1⟩
    · cases hk
  · rintro ⟨year, weekday, hs, hy, hw⟩
    obtain ⟨y, hy', _⟩ := Atoi_of_isIntegerText year hy
    obtain ⟨w, hw', _⟩ := Atoi_of_isIntegerText weekday hw
    have hsplit : Split '-' s.toList = [year, weekday] := by
      rw [hs, split_append_sep '-' year weekday (not_mem_of_isIntegerText year hy),
        split_of_not_mem '-' weekday (not_mem_of_isIntegerText weekday hw)]
    refine ⟨(y, w), ?_⟩
    unfold extractDateParts
    rw [hsplit]
    simp only [hy', hw']

theorem fetch_error_iff_not_accepted (data : List Row) :
    (∃ e, fetchDataWeekVsWeekend data = .error e) ↔ ¬ Accepted data := by
  constructor
  · rintro ⟨e, he⟩ hacc
    obtain ⟨report, hr⟩ := processRows_ok_of_accepted data [] hacc
    unfold fetchDataWeekVsWeekend at he
    rw [hr] at he
    cases he
  · intro hna
    cases hf : fetchDataWeekVsWeekend data with
    | error e => exact ⟨e, rfl⟩
    | ok report => exact absurd (accepted_of_processRows_ok data [] report hf) hna

/-- C9, as stated, fails on the key `2020-7`: the loop does not abort, it adds the
three days of the row to the week bucket of 2020. -/
theorem weekday_seven_is_accepted :
    fetchDataWeekVsWeekend [⟨"2020-7", false, 3⟩] = .ok [(2020, threeDryWeekDaysAgg)] ∧
      threeDryWeekDaysAgg.TotalDaysWeek = 3 := by
  exact ⟨rfl, rfl⟩

/-- C9, amended: the aggregation loop aborts with a fatal error, without a mapping,
exactly when some bucket row has a `YearWeekday` that is not of the form
`<integer>-<integer>` (such as `abc`, `2020`, `2020-x`, `2020-1-2`); it neither skips
such a row nor adds its `NumberOfDays` to a bucket.  The weekday number is not checked
against 0..6. -/
theorem loop_aborts_iff_malformed_key (data : List Row) :
    (∃ e, fetchDataWeekVsWeekend data = .error e) ↔
      ∃ row ∈ data, ¬ IsYearWeekday row.YearWeekday := by
  rw [fetch_error_iff_not_accepted]
  unfold Accepted
  constructor
  · intro h
    by_contra hne
    apply h
    intro row hrow
    by_contra hk
    exact hne ⟨row, hrow, fun hwf => hk ((extractDateParts_ok_iff _).mpr hwf)⟩
  · rintro ⟨row, hrow, hnot⟩ hacc
    exact hnot ((extractDateParts_ok_iff _).mp (hacc row hrow))

/-- The examples `abc`, `2020`, `2020-x` and `2020-1-2`, each after the three rows of the
scenario, as instances of `loop_aborts_iff_malformed_key`. -/
theorem loop_aborts_on_examples :
    fetchDataWeekVsWeekend (scenario2020 ++ [⟨"abc", true, 1⟩]) =
        .error (.formatYearWeekdayExpected "abc") ∧
      fetchDataWeekVsWeekend (scenario2020 ++ [⟨"2020", true, 1⟩]) =
        .error (.formatYearWeekdayExpected "2020") ∧
      fetchDataWeekVsWeekend (scenario2020 ++ [⟨"2020-x", true, 1⟩]) =
        .error (.failedToParseWeekday "x") ∧
      fetchDataWeekVsWeekend (scenario2020 ++ [⟨"2020-1-2", true, 1⟩]) =
        .error (.formatYearWeekdayExpected "2020-1-2") ∧
      (∃ row ∈ scenario2020 ++ [⟨"2020-x", true, 1⟩], ¬ IsYearWeekday row.YearWeekday) ∧
      ¬ ∃ row ∈ scenario2020, ¬ IsYearWeekday row.YearWeekday :=
  ⟨rfl, rfl, rfl, rfl,
    (loop_aborts_iff_malformed_key (scenario2020 ++ [Row.mk "2020-x" true 1])).mp
      ⟨Fatal.failedToParseWeekday "x", rfl⟩,
    fun h => by
      obtain ⟨e, he⟩ := (loop_aborts_iff_malformed_key scenario2020).mpr h
      have hok : fetchDataWeekVsWeekend scenario2020 = .ok [(2020, scenario2020Agg)] := rfl
      rw [hok] at he
      cases he⟩

end Analyze

namespace ScrapeSunsetSunrise

open Go

/-! ## `rowsFromQuery` -/

theorem head_of_filter_isNumber (numberTable : Char → Bool) (l : List Char) :
    ∀ c ∈ (l.filter (IsNumber numberTable)).head?, c ≠ '-' ∧ c ≠ '+' := by
  intro c hc
  have hmem : c ∈ l.filter (IsNumber numberTable) := List.mem_of_mem_head? hc
  have hnum : IsNumber numberTable c = true := (List.mem_filter.mp hmem).2
  have hminus : IsNumber numberTable '-' = false := rfl
  have hplus : IsNumber numberTable '+' = false := rfl
  constructor
  · intro e
    rw [e, hminus] at hnum
    cases hnum
  · intro e
    rw [e, hplus] at hnum
    cases hnum

theorem parseInt_eq_some {Time : Type} (lib : Library Time) (htmlCols : List String) (d : Int) :
    parseInt lib (TrimSpace (cellText htmlCols 3)) = some d ↔
      durationDigits lib htmlCols ≠ [] ∧ (durationDigits lib htmlCols).all isDigit = true ∧
        digitsValue (durationDigits lib htmlCols) ≤ 9223372036854775807 ∧
        d = (digitsValue (durationDigits lib htmlCols) : Int) := by
  unfold parseInt
  rw [Atoi_unsigned _ (head_of_filter_isNumber lib.numberTable _)]
  exact atoiDigits_false_eq_some _ d

theorem parseRow_of_parse {Time : Type} (lib : Library Time) (htmlCols : List String)
    (hparse : DateAndTimesParse lib htmlCols) :
    ∃ date sunriseStart sunriseEnd sunsetStart sunsetEnd,
      parseRow lib htmlCols =
        match parseInt lib (TrimSpace (cellText htmlCols 3)) with
        | none => .error .duration
        | some durationMins =>
          if durationMins < 1 ∨ durationMins > 120 then
            .error (.durationOutsideRange durationMins)
          else
            .ok { Date := date, SunriseStart := sunriseStart, SunriseEnd := sunriseEnd,
                  SunsetStart := sunsetStart, SunsetEnd := sunsetEnd,
                  Duration := mulInt durationMins Minute } := by
  obtain ⟨date, hd, ⟨t4, h4⟩, ⟨t1, h1⟩, ⟨t5, h5⟩, ⟨t2, h2⟩⟩ := hparse
  refine ⟨date, t4, t1, t5, t2, ?_⟩
  unfold parseRow
  simp only [hd, h4, h1, h5, h2]

theorem mulInt_minute (d : Nat) (h : d ≤ 120) : mulInt (d : Int) Minute = (d : Int) * Minute := by
  unfold mulInt Minute
  apply wrapInt_of_inRange
  unfold InRange
  omega

theorem parseRow_accepts {Time : Type} (lib : Library Time) (htmlCols : List String)
    (hparse : DateAndTimesParse lib htmlCols) (hdur : DurationWithinRange lib htmlCols) :
    ∃ row, parseRow lib htmlCols = .ok row ∧
      row.Duration = (digitsValue (durationDigits lib htmlCols) : Int) * Minute := by
  obtain ⟨date, t4, t1, t5, t2, hrow⟩ := parseRow_of_parse lib htmlCols hparse
  obtain ⟨h1, h2, h3, h4⟩ := hdur
  have hint : parseInt lib (TrimSpace (cellText htmlCols 3)) =
      some (digitsValue (durationDigits lib htmlCols) : Int) :=
    (parseInt_eq_some lib htmlCols _).mpr ⟨h1, h2, by omega, rfl⟩
  have hrange : ¬ (((digitsValue (durationDigits lib htmlCols) : Nat) : Int) < 1 ∨
      ((digitsValue (durationDigits lib htmlCols) : Nat) : Int) > 120) := by omega
  rw [hint] at hrow
  simp only [hrange, if_false] at hrow
  exact ⟨_, hrow, mulInt_minute _ h4⟩

theorem parseRow_rejects {Time : Type} (lib : Library Time) (htmlCols : List String)
    (hdur : ¬ DurationWithinRange lib htmlCols) : ∃ e, parseRow lib htmlCols = .error e := by
  unfold parseRow
  split
  · exact ⟨_, rfl⟩
  · split
    · exact ⟨_, rfl⟩
    · split
      · exact ⟨_, rfl⟩
      · split
        · exact ⟨_, rfl⟩
        · split
          · exact ⟨_, rfl⟩
          · split
            · exact ⟨_, rfl⟩
            · rename_i durationMins hint
              split
              · exact ⟨_, rfl⟩
              · rename_i hrange
                exfalso
                apply hdur
                obtain ⟨h1, h2, _, h4⟩ := (parseInt_eq_some lib htmlCols durationMins).mp hint
                refine ⟨h1, h2, ?_, ?_⟩ <;> omega

theorem processNodes_append {Time : Type} (lib : Library Time) (pre post : List (List String)) :
    ∀ rows : List (Row Time), processNodes lib rows (pre ++ post) =
      match processNodes lib rows pre with
      | .error e => .error e
      | .ok mid => processNodes lib mid post := by
  induction pre with
  | nil => intro rows; rfl
  | cons htmlCols rest ih =>
    intro rows
    simp only [List.cons_append, processNodes]
    split
    · exact ih rows
    · cases parseRow lib htmlCols with
      | error e => rfl
      | ok row => exact ih _

/-- C10, as stated, fails on the duration cell `-5`: `parseInt` drops the minus sign,
and the row is accepted with a duration of 5 minutes. -/
theorem negative_duration_is_accepted :
    rowsFromQuery textLibrary [sampleCols "-5"] =
      .ok [{ Date := "01 01 2020", SunriseStart := "01 01 2020 08:08",
             SunriseEnd := "01 01 2020 08:45", SunsetStart := "01 01 2020 17:25",
             SunsetEnd := "01 01 2020 16:47", Duration := 5 * 60000000000 }] := by
  rfl

/-- C10, amended: in `rowsFromQuery`, a six-column table row whose date and four time
cells parse is accepted exactly when the numeric characters of its duration cell, all
other characters dropped, are ASCII digits with a value `d` within 1..120: then the
row is appended with `Duration = d` minutes and the loop goes on, and otherwise (value
0 or 121, no digits) `rowsFromQuery` returns an error and no rows for the page.  A sign
is dropped like any other character: `-5` is accepted as 5. -/
theorem row_accepted_iff_duration_digits_within_range {Time : Type} (lib : Library Time)
    (pre post : List (List String)) (htmlCols : List String) (rows : List (Row Time))
    (hloc : lib.LoadLocation = true) (hpre : processNodes lib [] pre = .ok rows)
    (hlen : htmlCols.length = rowColumnsCount) (hparse : DateAndTimesParse lib htmlCols) :
    (DurationWithinRange lib htmlCols →
        ∃ row, parseRow lib htmlCols = .ok row ∧
          row.Duration = (digitsValue (durationDigits lib htmlCols) : Int) * Minute ∧
          rowsFromQuery lib (pre ++ htmlCols :: post) =
            processNodes lib (rows ++ [row]) post) ∧
      (¬ DurationWithinRange lib htmlCols →
        ∃ e, rowsFromQuery lib (pre ++ htmlCols :: post) = .error e) := by
  have hlen' : ¬ htmlCols.length ≠ rowColumnsCount := fun h => h hlen
  constructor
  · intro hdur
    obtain ⟨row, hrow, hduration⟩ := parseRow_accepts lib htmlCols hparse hdur
    refine ⟨row, hrow, hduration, ?_⟩
    unfold rowsFromQuery
    rw [if_pos hloc, processNodes_append, hpre]
    simp only [processNodes, hlen', if_false, hrow]
  · intro hdur
    obtain ⟨e, he⟩ := parseRow_rejects lib htmlCols hdur
    refine ⟨e, ?_⟩
    unfold rowsFromQuery
    rw [if_pos hloc, processNodes_append, hpre]
    simp only [processNodes, hlen', if_false, he]

/-- A page with a header row and a row of 45 minutes, as an instance of
`row_accepted_iff_duration_digits_within_range`, and pages with the durations 0, 121
and without digits, on which `rowsFromQuery` returns an error. -/
theorem row_of_45_minutes_is_accepted :
    textLibrary.LoadLocation = true ∧
      processNodes textLibrary [] [["Datum", "Zon"]] = .ok [] ∧
      (sampleCols "45 min").length = rowColumnsCount ∧
      DurationWithinRange textLibrary (sampleCols "45 min") ∧
      (∃ row, parseRow textLibrary (sampleCols "45 min") = .ok row ∧
        row.Duration = (digitsValue (durationDigits textLibrary (sampleCols "45 min")) : Int) * Minute ∧
        rowsFromQuery textLibrary ([["Datum", "Zon"]] ++ sampleCols "45 min" :: []) =
          processNodes textLibrary ([] ++ [row]) []) ∧
      rowsFromQuery textLibrary [sampleCols "0"] = .error (.durationOutsideRange 0) ∧
      rowsFromQuery textLibrary [sampleCols "121"] = .error (.durationOutsideRange 121) ∧
      rowsFromQuery textLibrary [sampleCols "--"] = .error .duration :=
  have hparse : DateAndTimesParse textLibrary (sampleCols "45 min") :=
    ⟨_, rfl, ⟨_, rfl⟩, ⟨_, rfl⟩, ⟨_, rfl⟩, ⟨_, rfl⟩⟩
  have hdur : DurationWithinRange textLibrary (sampleCols "45 min") :=
    ⟨by decide, by decide, by decide, by decide⟩
  ⟨rfl, rfl, rfl, hdur,
    (row_accepted_iff_duration_digits_within_range textLibrary [["Datum", "Zon"]] []
      (sampleCols "45 min") [] rfl rfl rfl hparse).1 hdur,
    rfl, rfl, rfl⟩

end ScrapeSunsetSunrise
